import Mathlib

/-!
Verification development for the intent-governed tool-execution middleware
(hook engine, scope enforcement gate, command classifier, optimistic lock,
append-with-lock utility, context injector).

The definitions below are a shallow embedding of the TypeScript sources:

  src/hooks/ToolClassifier.ts
  src/hooks/CommandClassifier.ts
  src/hooks/ScopeEnforcementHook.ts
  src/hooks/ContextInjectorHook.ts
  src/hooks/optimisticLock.ts
  src/hooks/appendWithLock.ts
  src/hooks/traceUtils.ts
  src/hooks/hookErrors.ts

Conventions of the embedding:
  - JavaScript regular-expression tests over concrete built-in patterns are
    implemented as executable character-list matchers; regular expressions
    supplied by the user through the command-policy file, and the gitignore
    matcher of the external ignore package, are modelled as opaque boolean
    match functions supplied in the environment.
  - All filesystem reads are passed in explicitly (file contents as values);
    filesystem writes become explicit effect values in an output trace.
  - SHA-256 is modelled as an abstract hash function parameter: the code
    only ever compares hash values for equality.
  - Asynchronous HITL approval prompts are modelled by an oracle
    answering the n-th prompt of a run.
-/

namespace Middleware

/-! ## Small string and path utilities

The embedding re-implements the string primitives it needs over character
lists with structural recursion, so that every definition evaluates inside
the kernel; the core library versions run on substring positions the kernel
cannot unfold. -/

/-- Whitespace characters recognised by the JavaScript regex class backslash-s
(ASCII subset). -/
def isWsChar (c : Char) : Bool :=
  c = ' ' || c = '\t' || c = '\n' || c = '\r' || c = '\x0b' || c = '\x0c'

/-- Word characters of the JavaScript regex class backslash-w. -/
def isWordChar (c : Char) : Bool :=
  c.isAlpha || c.isDigit || c = '_'

/-- Whitespace trim on both ends, as the JavaScript trim method. -/
def strTrim (s : String) : String :=
  ⟨((s.data.dropWhile isWsChar).reverse.dropWhile isWsChar).reverse⟩

/-- ASCII lowercasing, as the JavaScript toLowerCase method on the command
strings handled here. -/
def strToLower (s : String) : String :=
  ⟨s.data.map Char.toLower⟩

/-- Character containment test. -/
def strContains (s : String) (c : Char) : Bool :=
  s.data.contains c

/-- Prefix test. -/
def strStartsWith (s pre : String) : Bool :=
  pre.data.isPrefixOf s.data

/-- Suffix test. -/
def strEndsWith (s suf : String) : Bool :=
  suf.data.isSuffixOf s.data

/-- Drop of the first n characters. -/
def strDrop (s : String) (n : Nat) : String :=
  ⟨s.data.drop n⟩

/-- Drop of the last n characters. -/
def strDropRight (s : String) (n : Nat) : String :=
  ⟨s.data.take (s.data.length - n)⟩

/-- Character-list splitter on a non-empty separator, leftmost-first and
non-overlapping; the fuel argument (initially the input length) makes the
recursion structural, each step consuming at least one character. -/
def splitOnFuel (sep : List Char) : Nat → List Char → List Char → List (List Char)
  | 0, _, acc => [acc.reverse]
  | fuel + 1, l, acc =>
      match l with
      | [] => [acc.reverse]
      | c :: rest =>
          if sep.isPrefixOf (c :: rest) then
            acc.reverse :: splitOnFuel sep fuel ((c :: rest).drop sep.length) []
          else
            splitOnFuel sep fuel rest (c :: acc)

/-- String splitter with the splitOn semantics used by the sources. -/
def strSplitOn (s sep : String) : List String :=
  match sep.data with
  | [] => [s]
  | c :: cs => (splitOnFuel (c :: cs) s.data.length s.data []).map (fun l => ⟨l⟩)

/-- Separator-interleaved concatenation. -/
def strIntercalate (sep : String) : List String → String
  | [] => ""
  | [x] => x
  | x :: xs => x ++ sep ++ strIntercalate sep xs

/-- Conversion of backslash separators to POSIX slashes; embeds the host
utility toPosixPath (Windows extended-length paths are out of scope of this
model, where all working directories are POSIX). -/
def toPosixPath (p : String) : String :=
  ⟨p.data.map (fun c => if c = '\\' then '/' else c)⟩

/-- Interpretation of path.posix.normalize: split on slashes, drop empty and
dot components, resolve dot-dot against previous components. -/
def posixNormalizeCore : List String → List String → List String
  | acc, [] => acc.reverse
  | acc, "" :: rest => posixNormalizeCore acc rest
  | acc, "." :: rest => posixNormalizeCore acc rest
  | acc, ".." :: rest =>
      match acc with
      | [] => posixNormalizeCore [".."] rest
      | ".." :: _ => posixNormalizeCore (".." :: acc) rest
      | _ :: acc' => posixNormalizeCore acc' rest
  | acc, comp :: rest => posixNormalizeCore (comp :: acc) rest

/-- Normalization of a POSIX path string (dot and dot-dot segments resolved,
repeated slashes collapsed). -/
def posixNormalize (p : String) : String :=
  let isAbs := strStartsWith p "/"
  let comps := posixNormalizeCore [] (strSplitOn p "/")
  let body := strIntercalate "/" comps
  if isAbs then
    "/" ++ body
  else if body = "" then
    "."
  else
    body

/-- Interpretation of path.resolve over POSIX paths relative to a working
directory. -/
def resolvePath (cwd p : String) : String :=
  if strStartsWith p "/" then posixNormalize p
  else posixNormalize (cwd ++ "/" ++ p)

/-- Drop of leading shared components between two component lists. -/
def dropCommonComps : List String → List String → List String × List String
  | x :: xs, y :: ys => if x = y then dropCommonComps xs ys else (x :: xs, y :: ys)
  | xs, ys => (xs, ys)

/-- Interpretation of path.relative over POSIX paths for targets at or below
the base directory; targets elsewhere climb with dot-dot components. -/
def relativePath (cwd abs : String) : String :=
  let c := posixNormalize cwd
  let a := posixNormalize abs
  if a = c then ""
  else if strStartsWith a (c ++ "/") then
    strDrop a (c.length + 1)
  else
    let cComps := (strSplitOn c "/").filter (fun s => s ≠ "")
    let aComps := (strSplitOn a "/").filter (fun s => s ≠ "")
    let (cRest, aRest) := dropCommonComps cComps aComps
    strIntercalate "/" (cRest.map (fun _ => "..") ++ aRest)

/-- Interpretation of path.dirname over POSIX paths. -/
def dirname (p : String) : String :=
  let comps := strSplitOn p "/"
  match comps with
  | [] => "."
  | [_] => "."
  | _ => strIntercalate "/" (comps.dropLast)

/-- Interpretation of path.join of a directory and one component. -/
def joinPath (a b : String) : String := a ++ "/" ++ b

/-- Duplicate removal keeping first occurrences, as Array.from over a Set. -/
def dedupKeepFirstAux (seen : List String) : List String → List String
  | [] => []
  | x :: xs =>
      if seen.contains x then dedupKeepFirstAux seen xs
      else x :: dedupKeepFirstAux (x :: seen) xs

/-- Duplicate removal keeping first occurrences. -/
def dedupKeepFirst (l : List String) : List String :=
  dedupKeepFirstAux [] l

/-! ## ToolClassifier (src/hooks/ToolClassifier.ts) -/

/-- Static set of destructive tools. -/
def destructiveTools : List String :=
  ["write_to_file", "apply_diff", "edit", "search_and_replace", "search_replace",
   "edit_file", "apply_patch", "execute_command", "generate_image"]

/-- Static set of safe tools. -/
def safeTools : List String :=
  ["read_file", "list_files", "search_files", "codebase_search",
   "read_command_output", "access_mcp_resource"]

/-- Static set of mutating tools (destructive tools minus the shell tool). -/
def mutatingTools : List String :=
  ["write_to_file", "apply_diff", "edit", "search_and_replace", "search_replace",
   "edit_file", "apply_patch", "generate_image"]

inductive ToolSafety where
  | safe
  | destructive
  | unknown
deriving DecidableEq, Repr

/-- Classification of a tool name against the static tables; the undefined
tool name of the source is the none case. -/
def classifyTool (toolName : Option String) : ToolSafety :=
  match toolName with
  | none => ToolSafety.unknown
  | some n =>
      if destructiveTools.contains n then ToolSafety.destructive
      else if safeTools.contains n then ToolSafety.safe
      else ToolSafety.unknown

/-- Membership in the destructive tool set. -/
def isDestructiveTool (toolName : String) : Bool :=
  destructiveTools.contains toolName

/-- Membership in the mutating tool set. -/
def isMutatingTool (toolName : String) : Bool :=
  mutatingTools.contains toolName

/-! ## CommandClassifier (src/hooks/CommandClassifier.ts)

The built-in regular expressions are implemented as executable matchers on
character lists.  Project-policy regexes (free-form strings compiled at run
time in the source) are modelled as opaque match predicates; a policy entry
whose compilation fails in the source matches nothing and is modelled by the
constantly-false predicate. -/

/-- Consumption of a literal character sequence. -/
def consumeLit : List Char → List Char → Option (List Char)
  | [], l => some l
  | _ :: _, [] => none
  | c :: cs, d :: ds => if c = d then consumeLit cs ds else none

/-- Consumption of one or more whitespace characters (greedy, as regex
backslash-s-plus where the continuation never starts with whitespace). -/
def consumeWs1 : List Char → Option (List Char)
  | [] => none
  | c :: cs => if isWsChar c then some (cs.dropWhile isWsChar) else none

/-- Test for the regex tail group of a whitespace character or end of input. -/
def wsOrEnd : List Char → Bool
  | [] => true
  | c :: _ => isWsChar c

/-- Test for a word boundary after a word character: end of input or a
non-word character. -/
def boundaryAfter : List Char → Bool
  | [] => true
  | c :: _ => !(isWordChar c)

/-- Matcher for a literal word followed by whitespace or end of input. -/
def litThenWsOrEnd (w : String) (l : List Char) : Bool :=
  match consumeLit w.data l with
  | some rest => wsOrEnd rest
  | none => false

/-- Matcher for two literal words separated by whitespace, the second followed
by whitespace or end of input. -/
def chainWords (a b : String) (l : List Char) : Bool :=
  match consumeLit a.data l with
  | none => false
  | some r1 =>
      match consumeWs1 r1 with
      | none => false
      | some r2 => litThenWsOrEnd b r2

/-- Matcher for a head word, whitespace, then one of several alternatives
followed by a word boundary. -/
def wordAltBoundary (head : String) (alts : List String) (l : List Char) : Bool :=
  match consumeLit head.data l with
  | none => false
  | some r1 =>
      match consumeWs1 r1 with
      | none => false
      | some r2 =>
          alts.any (fun a =>
            match consumeLit a.data r2 with
            | some r3 => boundaryAfter r3
            | none => false)

/-- Word-boundary scan: the position-local matcher is tried at every position
whose preceding character is absent or a non-word character, as the regex
backslash-b anchor before a word character. -/
def scanBoundary (p : List Char → Bool) : Option Char → List Char → Bool
  | prev, [] =>
      (match prev with | none => true | some c0 => !(isWordChar c0)) && p []
  | prev, c :: rest =>
      ((match prev with | none => true | some c0 => !(isWordChar c0)) && p (c :: rest))
      || scanBoundary p (some c) rest

/-- Unanchored word-boundary test over a string. -/
def testBoundary (p : List Char → Bool) (s : String) : Bool :=
  scanBoundary p none s.data

/-- Anchored test over a string. -/
def testAnchored (p : List Char → Bool) (s : String) : Bool :=
  p s.data

/-- Built-in safe command patterns. -/
def safeCommandPatterns : List (String → Bool) :=
  [ testAnchored (litThenWsOrEnd "ls"),
    testAnchored (litThenWsOrEnd "dir"),
    testAnchored (litThenWsOrEnd "get-childitem"),
    testAnchored (litThenWsOrEnd "gci"),
    testAnchored (litThenWsOrEnd "pwd"),
    testAnchored (litThenWsOrEnd "get-location"),
    testAnchored (litThenWsOrEnd "whoami"),
    testAnchored (litThenWsOrEnd "cat"),
    testAnchored (litThenWsOrEnd "get-content"),
    testAnchored (litThenWsOrEnd "type"),
    testAnchored (litThenWsOrEnd "head"),
    testAnchored (litThenWsOrEnd "tail"),
    testAnchored (chainWords "git" "status"),
    testAnchored (chainWords "git" "diff"),
    testAnchored (chainWords "git" "log") ]

/-- Built-in destructive command patterns. -/
def destructiveCommandPatterns : List (String → Bool) :=
  [ testBoundary (litThenWsOrEnd "rm"),
    testBoundary (litThenWsOrEnd "del"),
    testBoundary (litThenWsOrEnd "erase"),
    testBoundary (litThenWsOrEnd "remove-item"),
    testBoundary (litThenWsOrEnd "ri"),
    testBoundary (litThenWsOrEnd "rmdir"),
    testBoundary (litThenWsOrEnd "mv"),
    testBoundary (litThenWsOrEnd "move"),
    testBoundary (litThenWsOrEnd "cp"),
    testBoundary (litThenWsOrEnd "copy"),
    testBoundary (litThenWsOrEnd "touch"),
    testBoundary (litThenWsOrEnd "mkdir"),
    testBoundary (litThenWsOrEnd "chmod"),
    testBoundary (litThenWsOrEnd "chown"),
    testBoundary (litThenWsOrEnd "tee"),
    testBoundary (litThenWsOrEnd "truncate"),
    testBoundary (wordAltBoundary "perl" ["-pi"]),
    testBoundary (wordAltBoundary "sed" ["-i"]),
    testBoundary (wordAltBoundary "git"
      ["add", "commit", "push", "checkout", "reset", "clean", "revert", "merge", "branch"]),
    testBoundary (wordAltBoundary "pnpm" ["install", "add", "remove", "update", "patch"]),
    testBoundary (wordAltBoundary "npm" ["install", "add", "remove", "update"]),
    testBoundary (wordAltBoundary "yarn" ["add", "remove", "install", "upgrade"]),
    testBoundary (wordAltBoundary "pip" ["install", "uninstall"]),
    testBoundary (wordAltBoundary "go" ["build"]),
    testBoundary (wordAltBoundary "cargo" ["build", "run", "install"]),
    testBoundary (litThenWsOrEnd "make"),
    testBoundary (litThenWsOrEnd "cmake"),
    testBoundary (litThenWsOrEnd "tsc"),
    testBoundary (wordAltBoundary "dotnet" ["build"]),
    testBoundary (litThenWsOrEnd "gradle"),
    testBoundary (litThenWsOrEnd "mvn") ]

inductive CommandSafety where
  | safe
  | destructive
deriving DecidableEq, Repr

/-- Project command policy loaded from the orchestration directory, with each
regex already compiled to a match predicate over the normalized command. -/
structure CommandPolicy where
  safe : List (String → Bool)
  destructive : List (String → Bool)

/-- Built-in pattern stage of the classifier: safe patterns first, then
destructive patterns, then the destructive default. -/
def classifyBuiltins (normalized : String) : CommandSafety :=
  if safeCommandPatterns.any (fun p => p normalized) then CommandSafety.safe
  else if destructiveCommandPatterns.any (fun p => p normalized) then CommandSafety.destructive
  else CommandSafety.destructive

/-- Classification of a shell command string; the loaded policy file content
is passed in explicitly.  The debug variant of the source only adds logging
and decides identically. -/
def classifyCommand (policy : Option CommandPolicy) (command : String) : CommandSafety :=
  let normalized := strToLower (strTrim command)
  if normalized = "" then CommandSafety.destructive
  else if strContains normalized '<' || strContains normalized '>' then CommandSafety.destructive
  else
    match policy with
    | some pol =>
        if pol.safe.any (fun re => re normalized) then CommandSafety.safe
        else if pol.destructive.any (fun re => re normalized) then CommandSafety.destructive
        else classifyBuiltins normalized
    | none => classifyBuiltins normalized

/-! ## Data model (src/shared/user-intent.ts, src/hooks/types.ts, session state) -/

/-- Classification of the most recent user message.  The numeric confidence
field of the source is never read by any hook modelled here and is omitted
(floating point is outside the embedding). -/
structure UserIntentClassification where
  verdict : String
  reason : Option String
  source : String
  messageHash : Option String
deriving DecidableEq, Repr

/-- HITL decision record, cached in-session and appended to the decisions
log. -/
structure Decision where
  intent_id : String
  tool : String
  decision : String
  reason : String
  targets : Option (List String) := none
  command : Option String := none
  command_classification : Option CommandSafety := none
  intent_classification : Option UserIntentClassification := none
  timestamp : String := ""
deriving DecidableEq, Repr

/-- Pre-mutation snapshot of one file (src/hooks/optimisticLock.ts). -/
structure SnapshotEntry where
  before : Option String
  existed : Option Bool := none
  binary : Option Bool := none
deriving DecidableEq, Repr

/-- Stale-block record for one normalized path. -/
structure StaleBlock where
  timestamp : String
  tool : String
deriving DecidableEq, Repr

/-- Transient record of the most recent stale-file failure. -/
structure VerificationFailure where
  vftype : String
  intent_id : String
  tool : String
  path : String
  expected_hash : Option String
  actual_hash : Option String
  timestamp : String
deriving DecidableEq, Repr

/-- Extra values attached to a structured hook error. -/
inductive ExtraVal where
  | str (s : String)
  | ostr (s : Option String)
  | strs (l : List String)
  | cls (c : CommandSafety)
  | uic (u : UserIntentClassification)
deriving DecidableEq, Repr

/-- Structured hook error envelope (src/hooks/hookErrors.ts); the source
serializes it to a JSON string, the model keeps the structure. -/
structure HookErr where
  error_type : String
  code : String
  intent_id : String
  tool : Option String := none
  message : String
  extras : List (String × ExtraVal) := []
deriving DecidableEq, Repr

/-- Merge of base error and extras as serializeHookError. -/
def serializeHookError (base : HookErr) (extras : List (String × ExtraVal)) : HookErr :=
  { base with extras := extras }

/-- Veto error payload: either a plain message string or a serialized
structured error. -/
inductive ErrMsg where
  | plain (s : String)
  | structured (e : HookErr)
deriving DecidableEq, Repr

/-- Result of a pre-hook execution (src/hooks/types.ts). -/
structure HookResult where
  shouldProceed : Bool
  errorMessage : Option ErrMsg := none
  injectedContext : Option String := none
deriving DecidableEq, Repr

/-- Recognised argument keys of a tool call; the source stores them in an
untyped bag, the hooks only ever read these keys. -/
structure ToolArgs where
  path : Option String := none
  file_path : Option String := none
  files : List String := []
  patch : Option String := none
  command : Option String := none
  intent_id : Option String := none
  mutation_class : Option String := none
deriving DecidableEq, Repr

/-- Tool call input; isPartial embeds the partial streaming flag of the
source (a Lean keyword). -/
structure ToolUse where
  name : String
  isPartial : Bool := false
  params : ToolArgs := {}
  nativeArgs : ToolArgs := {}
deriving DecidableEq, Repr

/-- Active-intent context attached to the session: either the parsed record
carrying owned_scope, or the rendered XML string, or nothing. -/
inductive IntentCtx where
  | obj (owned_scope : List String)
  | xmlStr (s : String)
  | emptyCtx
deriving DecidableEq, Repr

/-- Active intent set by the intent-selection handshake. -/
structure ActiveIntent where
  id : String
  context : IntentCtx := IntentCtx.emptyCtx
  selectedAt : String := ""
deriving DecidableEq, Repr

/-- Session state touched by the hooks (the ad-hoc fields attached to the
Task object in the source). -/
structure TaskState where
  cwd : String
  activeIntent : Option ActiveIntent := none
  staleFileBlocks : List (String × StaleBlock) := []
  destructiveIntentApprovals : List (String × Bool) := []
  approvedCommands : List String := []
  intentDecisions : List Decision := []
  lastUserMessageText : Option String := none
  lastUserIntentClassification : Option UserIntentClassification := none
  lastVerificationFailure : Option VerificationFailure := none
  traceSnapshots : List (String × List (String × SnapshotEntry)) := []
  didRejectTool : Bool := false
deriving Repr

/-- HITL prompts shown by the scope gate, tagged by site. -/
inductive Prompt where
  | destructiveCommand (command : String)
  | destructiveIntentPreflight
  | staleOverride (path : String)
  | unknownTargets (tool : String)
  | destructiveOperation (summary : String)
  | scopeViolation (tool : String) (path : String)
deriving DecidableEq, Repr

/-- Filesystem write effects emitted by the scope gate: a direct best-effort
append (fs.appendFile), an append through the append-with-lock utility, and
directory creation. -/
inductive Effect where
  | mkdirp (dir : String)
  | appendFileDirect (file : String) (d : Decision)
  | appendWithLockFx (file : String) (tag : String)
deriving DecidableEq, Repr

/-- Ambient inputs of one scope-gate run: prompt oracle, loaded sidecar file
contents, the opaque host utilities, and the clock. -/
structure Env where
  answer : Nat → Bool
  ignoreFileText : Option String
  policy : Option CommandPolicy
  persistedDecisions : List Decision
  classifyIntent : String → UserIntentClassification
  hashMessage : String → String
  unescapeHtml : String → String
  ignoresPat : String → String → Bool
  nodeEnvTest : Bool
  now : String

/-! ## Association-list helpers for the session maps -/

/-- Lookup in a string-keyed association list (Map.get). -/
def assocGet {α : Type} : List (String × α) → String → Option α
  | [], _ => none
  | (k0, v0) :: rest, k => if k0 = k then some v0 else assocGet rest k

/-- Insert-or-replace in a string-keyed association list (Map.set). -/
def assocSet {α : Type} : List (String × α) → String → α → List (String × α)
  | [], k, v => [(k, v)]
  | (k0, v0) :: rest, k, v =>
      if k0 = k then (k, v) :: rest else (k0, v0) :: assocSet rest k v

/-- Removal from a string-keyed association list (Map.delete). -/
def assocDel {α : Type} : List (String × α) → String → List (String × α)
  | [], _ => []
  | (k0, v0) :: rest, k =>
      if k0 = k then assocDel rest k else (k0, v0) :: assocDel rest k

/-! ## Stale-block bookkeeping (src/hooks/optimisticLock.ts) -/

/-- Strip of one leading dot followed by a slash or backslash. -/
def stripDotSlash (s : String) : String :=
  if strStartsWith s "./" || strStartsWith s ".\\" then strDrop s 2 else s

/-- Normalized POSIX key of the stale-block store. -/
def normalizeStaleKey (relPath : String) : String :=
  toPosixPath (stripDotSlash relPath)

/-- Mark of a path as stale-blocked. -/
def markStaleFile (now : String) (task : TaskState) (relPath tool : String) : TaskState :=
  let blocks := assocSet task.staleFileBlocks (normalizeStaleKey relPath) ⟨now, tool⟩
  { task with staleFileBlocks := blocks }

/-- Clearing of a stale block. -/
def clearStaleFile (task : TaskState) (relPath : String) : TaskState :=
  { task with staleFileBlocks := assocDel task.staleFileBlocks (normalizeStaleKey relPath) }

/-- Query of the stale-block store. -/
def getStaleFileBlock (task : TaskState) (relPath : String) : Option StaleBlock :=
  assocGet task.staleFileBlocks (normalizeStaleKey relPath)

/-! ## Target-path extraction (src/hooks/traceUtils.ts) -/

/-- Patch header markers scanned for file paths. -/
def patchFileMarkers : List String :=
  ["*** Add File: ", "*** Delete File: ", "*** Update File: "]

/-- Move marker. -/
def moveToMarker : String := "*** Move to: "

/-- Paths contributed by one patch line: first matching add/delete/update
marker, then independently the move marker. -/
def pathsFromPatchLine (line : String) : List String :=
  let fromMarkers :=
    match patchFileMarkers.find? (fun m => strStartsWith line m) with
    | some m =>
        let fp := strTrim (strDrop line m.length)
        if fp ≠ "" then [fp] else []
    | none => []
  let fromMove :=
    if strStartsWith line moveToMarker then
      let mp := strTrim (strDrop line moveToMarker.length)
      if mp ≠ "" then [mp] else []
    else []
  fromMarkers ++ fromMove

/-- Paths named in the header markers of a patch body. -/
def extractPathsFromPatch (patchContent : String) : List String :=
  ((strSplitOn patchContent "\n").map pathsFromPatchLine).flatten

/-- Strings contributed by the recognised keys of one argument bag. -/
def tryAddArgs (a : ToolArgs) : List String :=
  (match a.path with
   | some s => if s ≠ "" then [s] else []
   | none => []) ++
  (match a.file_path with
   | some s => if s ≠ "" then [s] else []
   | none => []) ++
  a.files.filter (fun s => s ≠ "")

/-- Target paths of a tool call: patch header paths, then the recognised
argument keys of params and nativeArgs, deduplicated and with empty strings
dropped. -/
def extractTargetPaths (tu : ToolUse) : List String :=
  let patchPaths :=
    match tu.params.patch.orElse (fun _ => tu.nativeArgs.patch) with
    | some p => extractPathsFromPatch p
    | none => []
  dedupKeepFirst
    ((patchPaths ++ tryAddArgs tu.params ++ tryAddArgs tu.nativeArgs).filter (fun s => s ≠ ""))

/-! ## Scope-gate helpers (src/hooks/ScopeEnforcementHook.ts, private methods) -/

/-- Orchestration sidecar directory of a working directory. -/
def orchestrationDir (cwd : String) : String := joinPath cwd ".orchestration"

/-- Decisions ledger file. -/
def decisionsFile (cwd : String) : String :=
  joinPath (orchestrationDir cwd) "intent-decisions.jsonl"

/-- Diagnostics ledger file. -/
def diagnosticsFile (cwd : String) : String :=
  joinPath (orchestrationDir cwd) "agent-diagnostics.jsonl"

/-- Parse of the .intentignore content: lines split, trimmed, blanks and
hash-comments dropped. -/
def parseIgnoreLines (txt : String) : List String :=
  (((strSplitOn txt "\n").map strTrim).filter (fun l => l ≠ "")).filter
    (fun l => !(strStartsWith l "#"))

/-- Non-greedy extraction of path-tag contents from the rendered intent XML,
per the matchAll over open and close path tags (the dot of the source regex
does not cross line breaks). -/
def extractPathTags (s : String) : List String :=
  ((strSplitOn s "<path>").drop 1).filterMap fun seg =>
    match strSplitOn seg "</path>" with
    | [] => none
    | [_] => none
    | closed :: _ => if strContains closed '\n' then none else some closed

/-- Owned scope of the active intent: the parsed owned_scope list when the
context is an object, the path tags when it is the rendered XML string. -/
def getOwnedScopeFromTask (activeIntent : Option ActiveIntent) : List String :=
  match activeIntent with
  | none => []
  | some ai =>
      match ai.context with
      | IntentCtx.obj scope => scope
      | IntentCtx.xmlStr s => extractPathTags s
      | IntentCtx.emptyCtx => []

/-- Test for any of the glob metacharacters recognised by the gate. -/
def hasGlobChars (s : String) : Bool :=
  strContains s '*' || strContains s '?' || strContains s '[' || strContains s ']'

/-- Scope matching: glob-capable entries go through the gitignore matcher on
the POSIX-relative target, any other entry is an exact or
separator-extended prefix of the absolute target.  The gitignore matcher of
the external ignore package is the opaque parameter ig. -/
def matchesScope (ig : String → String → Bool)
    (scope absTarget relTarget cwd : String) : Bool :=
  let scopePosix := toPosixPath scope
  if hasGlobChars scopePosix then
    ig scopePosix relTarget
  else
    let absRoot := resolvePath cwd scope
    absTarget == absRoot || strStartsWith absTarget (absRoot ++ "/")

/-- Mutation metadata of a tool call, nativeArgs taking precedence. -/
def getMutationMetadata (tu : ToolUse) : Option String × Option String :=
  (tu.nativeArgs.intent_id.orElse (fun _ => tu.params.intent_id),
   tu.nativeArgs.mutation_class.orElse (fun _ => tu.params.mutation_class))

/-- Fill of missing mutation metadata on both argument bags. -/
def applyMutationMetadata (tu : ToolUse) (intentId mutationClass : String) : ToolUse :=
  let fill := fun (a : ToolArgs) =>
    { a with
      intent_id := if a.intent_id.getD "" = "" then some intentId else a.intent_id,
      mutation_class :=
        if a.mutation_class.getD "" = "" then some mutationClass else a.mutation_class }
  { tu with nativeArgs := fill tu.nativeArgs, params := fill tu.params }

/-- Destructive-operation detection on apply_patch payloads: delete and move
markers collected from trimmed patch lines. -/
def getDestructiveOperationInfo (tu : ToolUse) : Bool × Option String :=
  if tu.name ≠ "apply_patch" then (false, none)
  else
    match tu.params.patch.orElse (fun _ => tu.nativeArgs.patch) with
    | none => (false, none)
    | some patch =>
        if strTrim patch = "" then (false, none)
        else
          let lines := (strSplitOn patch "\n").map strTrim
          let deletes := lines.filterMap fun line =>
            if strStartsWith line "*** Delete File: " then
              let fp := strTrim (strDrop line "*** Delete File: ".length)
              if fp ≠ "" then some fp else none
            else none
          let moves := lines.filterMap fun line =>
            if strStartsWith line "*** Move to: " then
              let mp := strTrim (strDrop line "*** Move to: ".length)
              if mp ≠ "" then some mp else none
            else none
          if deletes = [] ∧ moves = [] then (false, none)
          else
            let parts :=
              (if deletes ≠ [] then ["delete " ++ strIntercalate ", " deletes] else []) ++
              (if moves ≠ [] then ["move " ++ strIntercalate ", " moves] else [])
            (true, some (strIntercalate "; " parts))

/-- Summary line of the destructive-operation prompt. -/
def buildDestructiveSummary (tu : ToolUse) (opSummary : Option String)
    (targetPaths : List String) : String :=
  match opSummary with
  | some s => s
  | none =>
      if targetPaths ≠ [] then tu.name ++ " on " ++ strIntercalate ", " targetPaths
      else tu.name

/-- Session cache of approved command strings (Set semantics). -/
def markCommandApproved (task : TaskState) (command : String) : TaskState :=
  if task.approvedCommands.contains command then task
  else { task with approvedCommands := task.approvedCommands ++ [command] }

/-- Record of an HITL decision: cached in-session, then persisted with a
direct best-effort append to the decisions ledger (fs.appendFile after a
best-effort mkdir; the source does not route this write through the
append-with-lock utility). -/
def recordDecision (env : Env) (task : TaskState) (d : Decision) :
    TaskState × List Effect :=
  let entry := { d with timestamp := env.now }
  ({ task with intentDecisions := task.intentDecisions ++ [entry] },
   [Effect.mkdirp (orchestrationDir task.cwd),
    Effect.appendFileDirect (decisionsFile task.cwd) entry])

/-- First persisted decision that is approved and satisfies the predicate. -/
def findMatchingApproval (decisions : List Decision) (pred : Decision → Bool) :
    Option Decision :=
  decisions.find? (fun d => d.decision = "approved" && pred d)

/-- Approval-cache key of a destructive prompt: the message hash when the
classification carries a non-empty one, else the tool and target list, else
nothing. -/
def getDestructiveApprovalKey (ic : Option UserIntentClassification)
    (tu : ToolUse) (targetPaths : List String) : Option String :=
  let fallback :=
    if targetPaths ≠ [] then some (tu.name ++ ":" ++ strIntercalate "," targetPaths)
    else none
  match ic with
  | some c =>
      match c.messageHash with
      | some h => if h ≠ "" then some h else fallback
      | none => fallback
  | none => fallback

/-- Lookup in the session destructive-approval cache. -/
def getDestructiveIntentApproval (task : TaskState) (key : String) : Option Bool :=
  assocGet task.destructiveIntentApprovals key

/-- Update of the session destructive-approval cache. -/
def setDestructiveIntentApproval (task : TaskState) (key : String)
    (approved : Bool) : TaskState :=
  { task with destructiveIntentApprovals :=
      assocSet task.destructiveIntentApprovals key approved }

/-- User-intent classification of the most recent user message with the
per-message-hash session cache; emits one diagnostics append (through the
append-with-lock utility) on a fresh classification outside test runs. -/
def getUserIntentClassification (env : Env) (task : TaskState) :
    Option UserIntentClassification × TaskState × List Effect :=
  match task.lastUserMessageText with
  | none => (none, task, [])
  | some userText =>
      if strTrim userText = "" then (none, task, [])
      else
        let messageHash := env.hashMessage userText
        let fresh :=
          let c0 := env.classifyIntent userText
          let result := { c0 with messageHash := some messageHash }
          let fx :=
            if env.nodeEnvTest then []
            else [Effect.appendWithLockFx (diagnosticsFile task.cwd) "intent_classification"]
          (some result, { task with lastUserIntentClassification := some result }, fx)
        match task.lastUserIntentClassification with
        | some cached =>
            if cached.messageHash = some messageHash then (some cached, task, [])
            else fresh
        | none => fresh

/-- Unwrap of a PowerShell command wrapper; the horizontal-whitespace classes
of the source regex admit spaces and tabs but not line breaks, and the
dot of the trailing capture group does not cross line breaks. -/
def unwrapShellCommand (command : String) : String :=
  let t := strTrim command
  let low := strToLower t
  let headLen : Option Nat :=
    if strStartsWith low "powershell" then some "powershell".length
    else if strStartsWith low "pwsh" then some "pwsh".length
    else none
  match headLen with
  | none => t
  | some h0 =>
      let h1 := if strStartsWith (strDrop low h0) ".exe" then h0 + 4 else h0
      let rest1 := strDrop low h1
      -- word boundary after the wrapper name
      if (rest1.data.head?.map isWordChar).getD false then t
      else
        let isHorizWs := fun (c : Char) => isWsChar c && c ≠ '\n' && c ≠ '\r'
        let wsLen := (rest1.data.takeWhile isHorizWs).length
        let rest2 := strDrop rest1 wsLen
        if !(strStartsWith rest2 "-command") then t
        else
          let rest3 := strDrop rest2 "-command".length
          let wsLen2 := (rest3.data.takeWhile isHorizWs).length
          if wsLen2 = 0 then t
          else
            let innerStart := h1 + wsLen + "-command".length + wsLen2
            let inner0 := strDrop t innerStart
            if inner0 = "" || strContains inner0 '\n' || strContains inner0 '\r' then t
            else
              let innerT := strTrim inner0
              let quoteCh := Char.ofNat 39
              let dq := strStartsWith innerT "\"" && strEndsWith innerT "\""
              let sq :=
                (innerT.data.head? = some quoteCh) && (innerT.data.getLast? = some quoteCh)
              let inner1 :=
                if dq || sq then strDropRight (strDrop innerT 1) 1 else innerT
              strTrim inner1

/-! ## The scope enforcement gate (ScopeEnforcementHook.execute) -/

/-- Running state of one gate execution: session state, the (possibly
metadata-filled) tool call, prompts shown so far, write effects so far. -/
structure GateSt where
  task : TaskState
  tu : ToolUse
  prompts : List Prompt := []
  fx : List Effect := []
deriving Repr

/-- Result of one gate execution. -/
structure GateOut where
  res : HookResult
  st : GateSt
deriving Repr

/-- Veto with a plain message. -/
def vetoPlain (st : GateSt) (msg : String) : GateOut :=
  ⟨{ shouldProceed := false, errorMessage := some (ErrMsg.plain msg) }, st⟩

/-- Veto with a serialized structured error. -/
def vetoErr (st : GateSt) (e : HookErr) : GateOut :=
  ⟨{ shouldProceed := false, errorMessage := some (ErrMsg.structured e) }, st⟩

/-- Pass-through result. -/
def proceedOut (st : GateSt) : GateOut :=
  ⟨{ shouldProceed := true }, st⟩

/-- HITL prompt: the oracle answers the n-th prompt of the run. -/
def askApproval (env : Env) (st : GateSt) (p : Prompt) : Bool × GateSt :=
  (env.answer st.prompts.length, { st with prompts := st.prompts ++ [p] })

/-- Decision recording threaded through the gate state. -/
def recordD (env : Env) (st : GateSt) (d : Decision) : GateSt :=
  let (task1, fx1) := recordDecision env st.task d
  { st with task := task1, fx := st.fx ++ fx1 }

/-- Session caching of an approved command threaded through the gate state. -/
def markCmd (st : GateSt) (command : String) : GateSt :=
  { st with task := markCommandApproved st.task command }

/-- Veto message of the missing-intent gate. -/
def noActiveIntentMsg : String :=
  "No active intent selected. Please run select_active_intent before performing destructive actions."

/-- Test of the intentignore bypass list for the active intent. -/
def intentIgnored (env : Env) (intentId : String) : Bool :=
  match env.ignoreFileText with
  | some txt => (parseIgnoreLines txt).contains intentId
  | none => false

/-- JavaScript truthy-or on optional strings (the empty string falls
through). -/
def orTruthy (a b : Option String) : Option String :=
  match a with
  | some s => if s ≠ "" then some s else b
  | none => b

/-- Verdict test on an optional classification. -/
def icDestructive (ic : Option UserIntentClassification) : Bool :=
  match ic with
  | some c => c.verdict == "destructive"
  | none => false

/-- Command branch of the gate (execute_command tool). -/
def commandBranch (env : Env) (st : GateSt) (aid : String) : GateOut :=
  let tu := st.tu
  let cmdRaw := orTruthy tu.nativeArgs.command tu.params.command
  let command := env.unescapeHtml (cmdRaw.getD "")
  if strTrim command = "" then proceedOut st
  else
    let classificationTarget := unwrapShellCommand command
    let classification := classifyCommand env.policy classificationTarget
    if classification = CommandSafety.safe then
      let st1 := recordD env st
        { intent_id := aid, tool := tu.name, decision := "approved",
          reason := "safe_command", command := some command,
          command_classification := some classification }
      proceedOut (markCmd st1 command)
    else
      let prior := findMatchingApproval env.persistedDecisions
        (fun d => d.tool = "execute_command" && d.command = some command && d.intent_id = aid)
      if prior.isSome then
        let st1 := recordD env st
          { intent_id := aid, tool := tu.name, decision := "approved",
            reason := "reused_approval", command := some command,
            command_classification := some classification }
        proceedOut (markCmd st1 command)
      else
        let (approved, st1) := askApproval env st (Prompt.destructiveCommand command)
        let st2 := recordD env st1
          { intent_id := aid, tool := tu.name,
            decision := if approved then "approved" else "rejected",
            reason := "destructive_command", command := some command,
            command_classification := some classification }
        if approved then proceedOut (markCmd st2 command)
        else
          vetoErr st2 (serializeHookError
            { error_type := "command_not_authorized", code := "CMD-001",
              intent_id := aid, tool := some tu.name,
              message := "User denied executing command" }
            [("command", ExtraVal.str command),
             ("classification", ExtraVal.cls classification)])

/-- Non-destructive branch: destructive user-intent preflight with approval
cache, otherwise pass-through. -/
def nonDestructiveBranch (env : Env) (st : GateSt) (aid : String)
    (ic : Option UserIntentClassification) (targetPaths : List String) : GateOut :=
  let tu := st.tu
  if icDestructive ic then
    let key := getDestructiveApprovalKey ic tu targetPaths
    let prior := match key with
      | some k => getDestructiveIntentApproval st.task k
      | none => none
    if prior = some true then proceedOut st
    else if prior = some false then
      vetoErr st (serializeHookError
        { error_type := "destructive_intent_denied", code := "REQ-009",
          intent_id := aid, tool := some tu.name,
          message := "User denied destructive intent confirmation" } [])
    else
      let (approved, st1) := askApproval env st Prompt.destructiveIntentPreflight
      let st2 := match key with
        | some k => { st1 with task := setDestructiveIntentApproval st1.task k approved }
        | none => st1
      let st3 := recordD env st2
        { intent_id := aid, tool := tu.name,
          decision := if approved then "approved" else "rejected",
          reason := "destructive_intent_preflight", targets := some targetPaths,
          intent_classification := ic }
      if approved then proceedOut st3
      else
        vetoErr st3 (serializeHookError
          { error_type := "destructive_intent_denied", code := "REQ-009",
            intent_id := aid, tool := some tu.name,
            message := "User denied destructive intent confirmation" }
          [("targets", ExtraVal.strs targetPaths)])
  else proceedOut st

/-- Stale-block and metadata section for mutating tools; the left summand is
an early return of the gate. -/
def metadataStage (env : Env) (st : GateSt) (aid : String)
    (targetPaths : List String) : GateOut ⊕ GateSt :=
  if !(isMutatingTool st.tu.name) then Sum.inr st
  else
    let blocked := targetPaths.filter (fun p => (getStaleFileBlock st.task p).isSome)
    let afterBlocked : GateOut ⊕ GateSt :=
      match blocked with
      | [] => Sum.inr st
      | b0 :: _ =>
          let stF := { st with fx := st.fx ++
            [Effect.appendWithLockFx (diagnosticsFile st.task.cwd) "stale_lock"] }
          let (approved, st1) := askApproval env stF (Prompt.staleOverride b0)
          if approved then
            Sum.inr { st1 with task := blocked.foldl clearStaleFile st1.task }
          else
            let st2 := { st1 with task := { st1.task with didRejectTool := true } }
            Sum.inl (vetoErr st2 (serializeHookError
              { error_type := "stale_lock", code := "REQ-007", intent_id := aid,
                tool := some st.tu.name,
                message := "Stale file lock active; read file and retry or explicitly approve override" }
              [("path", ExtraVal.str b0)]))
    match afterBlocked with
    | Sum.inl out => Sum.inl out
    | Sum.inr st1 =>
        let (mIntent, mClass) := getMutationMetadata st1.tu
        let autoIntentId := match mIntent with
          | some v => v
          | none => aid
        let autoMutationClass := match mClass with
          | some v => v
          | none => "INTENT_EVOLUTION"
        let st2 :=
          if mIntent.getD "" = "" || mClass.getD "" = "" then
            { st1 with tu := applyMutationMetadata st1.tu autoIntentId autoMutationClass }
          else st1
        if autoIntentId ≠ aid then
          Sum.inl (vetoErr st2 (serializeHookError
            { error_type := "intent_mismatch", code := "REQ-004", intent_id := aid,
              message := "Provided intent_id does not match active intent" }
            [("provided_intent_id", ExtraVal.str autoIntentId)]))
        else if autoMutationClass ≠ "AST_REFACTOR" && autoMutationClass ≠ "INTENT_EVOLUTION" then
          Sum.inl (vetoErr st2 (serializeHookError
            { error_type := "invalid_metadata", code := "REQ-005", intent_id := aid,
              message := "mutation_class must be AST_REFACTOR or INTENT_EVOLUTION" }
            [("mutation_class", ExtraVal.str autoMutationClass)]))
        else Sum.inr st2

/-- Destructive-operation preflight with approval cache; runs only when the
call is destructive-flavoured and all targets are in scope. -/
def destrOpStage (env : Env) (st : GateSt) (aid : String)
    (ic : Option UserIntentClassification) (targetPaths : List String)
    (requiresDestructivePrompt : Bool) (scopeViolations : List String)
    (opSummary : Option String) : GateOut ⊕ GateSt :=
  if requiresDestructivePrompt && scopeViolations = [] then
    let key := getDestructiveApprovalKey ic st.tu targetPaths
    let prior := match key with
      | some k => getDestructiveIntentApproval st.task k
      | none => none
    if prior = some true then Sum.inl (proceedOut st)
    else if prior = some false then
      Sum.inl (vetoErr st (serializeHookError
        { error_type := "destructive_operation_denied", code := "REQ-008",
          intent_id := aid, tool := some st.tu.name,
          message := "User denied destructive operation" } []))
    else
      let summary := buildDestructiveSummary st.tu opSummary targetPaths
      let (approved, st1) := askApproval env st (Prompt.destructiveOperation summary)
      let st2 := match key with
        | some k => { st1 with task := setDestructiveIntentApproval st1.task k approved }
        | none => st1
      let st3 := recordD env st2
        { intent_id := aid, tool := st.tu.name,
          decision := if approved then "approved" else "rejected",
          reason := "destructive_intent", targets := some targetPaths,
          intent_classification := ic }
      if approved then Sum.inr st3
      else
        Sum.inl (vetoErr st3 (serializeHookError
          { error_type := "destructive_operation_denied", code := "REQ-008",
            intent_id := aid, tool := some st.tu.name,
            message := "User denied destructive operation" }
          [("targets", ExtraVal.strs targetPaths)]))
  else Sum.inr st

/-- Per-violation HITL loop of the scope check. -/
def scopeViolationLoop (env : Env) (st : GateSt) (aid : String) :
    List String → GateOut
  | [] => proceedOut st
  | p :: rest =>
      let (approved, st1) := askApproval env st (Prompt.scopeViolation st.tu.name p)
      let st2 := recordD env st1
        { intent_id := aid, tool := st.tu.name,
          decision := if approved then "approved" else "rejected",
          reason := "scope_violation", targets := some [p] }
      if approved then scopeViolationLoop env st2 aid rest
      else
        vetoErr st2 (serializeHookError
          { error_type := "scope_violation", code := "REQ-001", intent_id := aid,
            message := "Intent not authorized to edit " ++ p }
          [("filename", ExtraVal.str p)])

/-- Shared tail of the mutating path: unknown-targets prompt, scope
computation, destructive-operation preflight, scope-violation prompts. -/
def afterMetadata (env : Env) (st : GateSt) (aid : String)
    (ic : Option UserIntentClassification) (targetPaths : List String) : GateOut :=
  let tu := st.tu
  let opInfo := getDestructiveOperationInfo tu
  let requiresDestructivePrompt :=
    isMutatingTool tu.name && (opInfo.fst || icDestructive ic)
  if targetPaths = [] then
    let (approved, st1) := askApproval env st (Prompt.unknownTargets tu.name)
    let st2 := recordD env st1
      { intent_id := aid, tool := tu.name,
        decision := if approved then "approved" else "rejected",
        reason := "unknown_targets" }
    if approved then proceedOut st2
    else
      vetoErr st2 (serializeHookError
        { error_type := "unknown_targets", code := "REQ-002", intent_id := aid,
          tool := some tu.name, message := "User denied operation with unknown targets" } [])
  else
    let ownedScope := getOwnedScopeFromTask st.task.activeIntent
    let scopeViolations := targetPaths.filter (fun p =>
      let absTarget := resolvePath st.task.cwd p
      let relTarget := toPosixPath (relativePath st.task.cwd absTarget)
      !(ownedScope.any (fun root =>
          matchesScope env.ignoresPat root absTarget relTarget st.task.cwd)))
    match destrOpStage env st aid ic targetPaths requiresDestructivePrompt
        scopeViolations opInfo.snd with
    | Sum.inl out => out
    | Sum.inr st1 => scopeViolationLoop env st1 aid scopeViolations

/-- The scope enforcement gate: embedding of ScopeEnforcementHook.execute. -/
def scopeGate (env : Env) (task : TaskState) (tu : ToolUse) : GateOut :=
  let st0 : GateSt := { task := task, tu := tu }
  if tu.isPartial then proceedOut st0
  else
    let isExecuteCommand := tu.name == "execute_command"
    let isDestructiveToolUse := isDestructiveTool tu.name
    let requiresIntent := isExecuteCommand || isDestructiveToolUse
    let aid := match task.activeIntent with
      | none => ""
      | some ai => ai.id
    if requiresIntent && aid == "" then vetoPlain st0 noActiveIntentMsg
    else if aid != "" && intentIgnored env aid then proceedOut st0
    else
      let targetPaths := extractTargetPaths tu
      let classified :=
        if aid != "" && tu.name != "select_active_intent" && !isExecuteCommand then
          getUserIntentClassification env task
        else (none, task, [])
      let ic := classified.fst
      let st1 : GateSt :=
        { task := classified.snd.fst, tu := tu, fx := classified.snd.snd }
      if isExecuteCommand then commandBranch env st1 aid
      else if !isDestructiveToolUse then nonDestructiveBranch env st1 aid ic targetPaths
      else
        match metadataStage env st1 aid targetPaths with
        | Sum.inl out => out
        | Sum.inr st2 => afterMetadata env st2 aid ic targetPaths

/-! ## Optimistic lock check (src/hooks/optimisticLock.ts) -/

/-- UTF-8 bytes of a string, as the byte view hashed by the crypto module. -/
def strBytes (s : String) : List Nat :=
  s.toUTF8.toList.map (fun b => b.toNat)

/-- Binary sniff of a buffer: any zero byte. -/
def isBinaryBuffer (buf : List Nat) : Bool :=
  buf.contains 0

/-- Snapshot lookup tolerant to leading dot-slash, backslash separators and
POSIX normalization; candidates are tried in insertion order. -/
def getSnapshotEntry (snapshotMap : List (String × SnapshotEntry)) (relPath : String) :
    Option SnapshotEntry :=
  let raw := relPath
  let candidates := dedupKeepFirst
    [raw, stripDotSlash raw, toPosixPath raw, toPosixPath (stripDotSlash raw),
     posixNormalize (toPosixPath raw), posixNormalize (toPosixPath (stripDotSlash raw))]
  (candidates.filterMap (fun c => assocGet snapshotMap c)).head?

/-- Optimistic lock check: compares the current file content against the
snapshot of the tool call; the abstract hash stands for SHA-256 and the
filesystem is the partial map fsys from absolute path to byte content (a
read failure is the none case). -/
def checkOptimisticLock (hash : List Nat → String) (fsys : String → Option (List Nat))
    (now : String) (task : TaskState) (toolCallId : Option String)
    (relPath tool : String) : Option HookErr × TaskState :=
  match toolCallId with
  | none => (none, task)
  | some tcid =>
      match assocGet task.traceSnapshots tcid with
      | none => (none, task)
      | some snapshotMap =>
          match getSnapshotEntry snapshotMap relPath with
          | none => (none, task)
          | some snapshot =>
              if snapshot.binary = some true then (none, task)
              else
                let absPath := resolvePath task.cwd relPath
                let current := fsys absPath
                if (current.map isBinaryBuffer).getD false then (none, task)
                else
                  let actualExists := current.isSome
                  let actualHash := current.map hash
                  let expectedExists := snapshot.existed.getD (snapshot.before ≠ none)
                  let expectedHash :=
                    match snapshot.before with
                    | some b => if expectedExists then some (hash (strBytes b)) else none
                    | none => none
                  let stale :=
                    (expectedExists && !actualExists) ||
                    (!expectedExists && actualExists) ||
                    (expectedExists && actualExists && expectedHash ≠ actualHash)
                  if !stale then (none, task)
                  else
                    let aid := match task.activeIntent with
                      | none => ""
                      | some ai => ai.id
                    let err := serializeHookError
                      { error_type := "stale_file", code := "REQ-007", intent_id := aid,
                        tool := some tool,
                        message := "File changed since tool started; refresh before retrying" }
                      [("path", ExtraVal.str relPath),
                       ("expected_hash", ExtraVal.ostr expectedHash),
                       ("actual_hash", ExtraVal.ostr actualHash)]
                    let vf : VerificationFailure :=
                      { vftype := "stale_file", intent_id := aid, tool := tool,
                        path := relPath, expected_hash := expectedHash,
                        actual_hash := actualHash, timestamp := now }
                    let task1 := { task with lastVerificationFailure := some vf }
                    (some err, markStaleFile now task1 relPath tool)

/-! ## Append-with-lock utility (src/hooks/appendWithLock.ts) -/

/-- Outcome of one exclusive-create open of the sidecar lockfile: free,
already held (EEXIST), or a foreign failure code. -/
inductive LockProbe where
  | free
  | busy
  | failOther (code : String)
deriving DecidableEq, Repr

/-- Filesystem operations performed by the utility, in order. -/
inductive FsEff where
  | mkdirp (dir : String)
  | openLock (lockPath : String)
  | appendFile (file : String) (content : String)
  | closeLock
  | unlinkLock (lockPath : String)
  | sleep (ms : Nat)
deriving DecidableEq, Repr

/-- Result of an append-with-lock run. -/
structure AppendResult where
  ok : Bool
  errCode : Option String
  appended : Bool
  fx : List FsEff
deriving DecidableEq, Repr

/-- Retry limit of the utility. -/
def maxAttempts : Nat := 8

/-- Attempt loop: the probe oracle answers per attempt number; on busy, back
off 25 milliseconds times the attempt number unless this was the last
allowed attempt, in which case the lock error propagates. -/
def appendLockGo (lockAt : Nat → LockProbe) (filePath content lockPath : String) :
    Nat → Nat → List FsEff → AppendResult
  | _, 0, fx => { ok := false, errCode := some "EEXIST", appended := false, fx := fx }
  | attempt, rem + 1, fx =>
      match lockAt attempt with
      | LockProbe.free =>
          { ok := true, errCode := none, appended := true,
            fx := fx ++ [FsEff.openLock lockPath, FsEff.appendFile filePath content,
                         FsEff.closeLock, FsEff.unlinkLock lockPath] }
      | LockProbe.busy =>
          if rem = 0 then
            { ok := false, errCode := some "EEXIST", appended := false, fx := fx }
          else
            appendLockGo lockAt filePath content lockPath (attempt + 1) rem
              (fx ++ [FsEff.sleep (25 * attempt)])
      | LockProbe.failOther code =>
          { ok := false, errCode := some code, appended := false,
            fx := fx ++ [FsEff.openLock lockPath] }

/-- Append-with-lock: parent directory creation, then the bounded
exclusive-create retry loop on the sidecar lockfile. -/
def appendWithLock (lockAt : Nat → LockProbe) (filePath content : String) : AppendResult :=
  let lockPath := filePath ++ ".lock"
  appendLockGo lockAt filePath content lockPath 1 maxAttempts
    [FsEff.mkdirp (dirname filePath)]

/-! ## Context injector trace history (ContextInjectorHook.loadIntentContext
and SelectActiveIntentTool) -/

/-- Related-item of a trace conversation. -/
structure TraceRel where
  rtype : String
  value : String
deriving DecidableEq, Repr

/-- Conversation record of a trace file entry. -/
structure TraceConv where
  related : List TraceRel := []
deriving DecidableEq, Repr

/-- File record of a trace entry. -/
structure TraceFile where
  relative_path : String := ""
  conversations : List TraceConv := []
deriving DecidableEq, Repr

/-- Trace ledger entry fields read by the history loaders; intentIdCamel
embeds the alternative camel-case field probed by the select tool. -/
structure TraceEntry where
  id : String := ""
  timestamp : String := ""
  intent_id : Option String := none
  intentIdCamel : Option String := none
  files : List TraceFile := []
deriving DecidableEq, Repr

/-- Link test of the context injector hook: some conversation carries a
related item of type specification whose value is the intent id.  The
top-level intent_id field is not consulted here. -/
def hookTraceLinked (intentId : String) (t : TraceEntry) : Bool :=
  t.files.any (fun f =>
    f.conversations.any (fun c =>
      c.related.any (fun r => r.rtype = "specification" && r.value = intentId)))

/-- Link test of the select_active_intent tool handler: top-level intent id
match (either field spelling) or the specification-related test. -/
def toolTraceRelated (intentId : String) (t : TraceEntry) : Bool :=
  t.intent_id = some intentId || t.intentIdCamel = some intentId ||
    hookTraceLinked intentId t

/-- Intent record of the active_intents file. -/
structure IntentSpec where
  id : String
  name : String := ""
  status : String
  owned_scope : List String := []
  constraints : List String := []
  acceptance_criteria : List String := []
deriving DecidableEq, Repr

/-- Rendered context block (the source serializes this to the XML string). -/
structure CtxBlock where
  intent : IntentSpec
  briefHistory : List TraceEntry
  sharedKnowledge : String
deriving DecidableEq, Repr

/-- History slice of the context injector hook: JSON-parsed trace lines (the
none entries are unparseable lines), filtered by the hook link test, last
five kept. -/
def hookRelatedTraces (intentId : String) (parsedLines : List (Option TraceEntry)) :
    List TraceEntry :=
  let entries := parsedLines.filterMap (fun o => o)
  let related := entries.filter (hookTraceLinked intentId)
  related.drop (related.length - 5)

/-- Context loading of the context injector hook: find the intent, require
IN_PROGRESS, attach the trace history slice and the shared knowledge. -/
def loadIntentContextModel (intents : List IntentSpec)
    (parsedLines : List (Option TraceEntry)) (sharedKnowledge : Option String)
    (intentId : String) : Except String CtxBlock :=
  match intents.find? (fun i => i.id = intentId) with
  | none => Except.error ("Intent " ++ intentId ++ " not found")
  | some selected =>
      if selected.status ≠ "IN_PROGRESS" then
        Except.error ("Intent " ++ intentId ++ " is not in IN_PROGRESS status")
      else
        Except.ok
          { intent := selected,
            briefHistory := hookRelatedTraces intentId parsedLines,
            sharedKnowledge := sharedKnowledge.getD "" }

/-- History slice the claim describes: any related item whose value is the
intent id, or a matching top-level intent_id, last five kept.  This
definition follows the words of the specification for comparison with the
code-derived hookRelatedTraces. -/
def claimTraceLinked (intentId : String) (t : TraceEntry) : Bool :=
  t.files.any (fun f =>
    f.conversations.any (fun c =>
      c.related.any (fun r => r.value = intentId))) ||
  t.intent_id = some intentId

/-- Last five claim-linked entries, following the specification words. -/
def claimRelatedTraces (intentId : String) (parsedLines : List (Option TraceEntry)) :
    List TraceEntry :=
  let entries := parsedLines.filterMap (fun o => o)
  let related := entries.filter (claimTraceLinked intentId)
  related.drop (related.length - 5)

/-! ## Hook engine and dispatch (HookEngine.executePreHooks and the driver) -/

/-- Pure pre-hook: name, optional tool filter, and the state-passing run
function. -/
structure PreHookFn where
  name : String
  toolFilter : Option (List String)
  run : TaskState → ToolUse → HookResult × TaskState

/-- Tool filter test of the engine. -/
def applicableTo (filter : Option (List String)) (toolName : String) : Bool :=
  match filter with
  | none => true
  | some l => l.contains toolName

/-- Accumulating pre-hook loop: first veto short-circuits with the vetoing
error (or a synthesized blocked-execution message), injected context
concatenates. -/
def executePreHooksGo (tu : ToolUse) : List PreHookFn → TaskState → HookResult →
    HookResult × TaskState
  | [], task, acc => (acc, task)
  | h :: rest, task, acc =>
      if !(applicableTo h.toolFilter tu.name) then executePreHooksGo tu rest task acc
      else
        let (r, task1) := h.run task tu
        if !r.shouldProceed then
          ({ shouldProceed := false,
             errorMessage := some (r.errorMessage.getD
               (ErrMsg.plain ("Hook \"" ++ h.name ++ "\" blocked execution"))) },
           task1)
        else
          let acc1 := match r.injectedContext with
            | some c => { acc with injectedContext := some ((acc.injectedContext.getD "") ++ c) }
            | none => acc
          executePreHooksGo tu rest task1 acc1

/-- Pre-hook dispatch of the engine. -/
def executePreHooks (hooks : List PreHookFn) (task : TaskState) (tu : ToolUse) :
    HookResult × TaskState :=
  executePreHooksGo tu hooks task { shouldProceed := true }

/-- Driver outcome of one tool call: whether the handler ran, and the
pre-hook verdict. -/
structure DispatchOut where
  handlerInvoked : Bool
  preResult : HookResult
  task : TaskState

/-- Driver: pre-hooks first; the tool handler is invoked exactly when every
applicable pre-hook proceeded. -/
def dispatchToolCall (hooks : List PreHookFn) (task : TaskState) (tu : ToolUse) :
    DispatchOut :=
  let (pre, task1) := executePreHooks hooks task tu
  { handlerInvoked := pre.shouldProceed, preResult := pre, task := task1 }

/-- The scope enforcement gate as an engine hook (phase pre, no tool
filter). -/
def scopeEnforcementHookFn (env : Env) : PreHookFn :=
  { name := "scope_enforcement",
    toolFilter := none,
    run := fun task tu =>
      let out := scopeGate env task tu
      (out.res, out.st.task) }

/-- Concrete snapshot for the optimistic-lock witness. -/
def c2snap : SnapshotEntry := { before := some "A", existed := some true, binary := some false }

/-- Concrete snapshot map for the optimistic-lock witness. -/
def c2map : List (String × SnapshotEntry) := [("src/a.ts", c2snap)]

/-- Concrete session for the optimistic-lock witness. -/
def c2task : TaskState := { cwd := "/w", traceSnapshots := [("call1", c2map)] }

/-- Constant stand-in hash for the optimistic-lock witness. -/
def c2hash : List Nat → String := fun _ => "H"

/-- Concrete filesystem for the optimistic-lock witness: the snapshotted file
has been deleted. -/
def c2fsys : String → Option (List Nat) := fun _ => none

/-- Concrete trace entry whose only link is its top-level intent_id. -/
def c4Trace : TraceEntry := { id := "t1", timestamp := "T1", intent_id := some "INT-1" }

/-- Concrete IN_PROGRESS intent for the context-injector claims. -/
def c4Intent : IntentSpec := { id := "INT-1", name := "n", status := "IN_PROGRESS" }

/-- Environment with inert oracles shared by the gate witnesses. -/
def baseEnv : Env :=
  { answer := fun _ => false,
    ignoreFileText := none,
    policy := none,
    persistedDecisions := [],
    classifyIntent := fun _ =>
      { verdict := "unknown", reason := none, source := "none", messageHash := none },
    hashMessage := fun s => s,
    unescapeHtml := fun s => s,
    ignoresPat := fun _ _ => false,
    nodeEnvTest := true,
    now := "T0" }

/-- Session with a live intent owning the src scope, shared by witnesses. -/
def gateTask : TaskState :=
  { cwd := "/w", activeIntent := some { id := "i1", context := IntentCtx.obj ["src"] } }

/-- Persisted approval of a destructive command from an earlier session. -/
def c6decision : Decision :=
  { intent_id := "i1", tool := "execute_command", decision := "approved",
    reason := "destructive_command", command := some "rm tmp", timestamp := "T-1" }

/-- Environment whose decisions log carries the persisted approval. -/
def c6env : Env := { baseEnv with persistedDecisions := [c6decision] }

/-- Environment whose classifier labels every user message destructive. -/
def c10env : Env :=
  { baseEnv with classifyIntent := fun _ =>
      { verdict := "destructive", reason := none, source := "heuristic", messageHash := none } }

/-- Read call used to exercise the destructive-intent preflight. -/
def c10tuRead : ToolUse := { name := "read_file", params := { path := some "src/a.ts" } }

/-- Session with a destructive-classified last user message and no cached
denial. -/
def c10taskFresh : TaskState := { gateTask with lastUserMessageText := some "wipe it" }

/-- The same session after the denial has been cached under the message
hash. -/
def c10taskCached : TaskState :=
  { c10taskFresh with destructiveIntentApprovals := [("wipe it", false)] }

/-- Patch call deleting a file, used to exercise the destructive-operation
preflight. -/
def c10tuPatch : ToolUse :=
  { name := "apply_patch",
    params := { patch := some "*** Delete File: src/x.ts",
                intent_id := some "i1", mutation_class := some "AST_REFACTOR" } }

/-- Session with the operation denial cached under the fallback key. -/
def c10taskPatchCached : TaskState :=
  { gateTask with destructiveIntentApprovals := [("apply_patch:src/x.ts", false)] }

/-- Decisions persisted to the decisions ledger by direct appends
(fs.appendFile) among a list of write effects. -/
def decisionAppends (cwd : String) (fx : List Effect) : List Decision :=
  fx.filterMap fun e =>
    match e with
    | Effect.appendFileDirect f d => if f = decisionsFile cwd then some d else none
    | _ => none

/-- Test that every append routed through the append-with-lock utility
targets the diagnostics ledger (so none targets the decisions ledger). -/
def lockedOnlyDiag (cwd : String) (fx : List Effect) : Bool :=
  fx.all fun e =>
    match e with
    | Effect.appendWithLockFx f _ => f == diagnosticsFile cwd
    | _ => true

/-- Count of HITL prompts other than the stale-lock override. -/
def countNonStale (ps : List Prompt) : Nat :=
  (ps.filter fun p =>
    match p with
    | Prompt.staleOverride _ => false
    | _ => true).length

/-- Run invariant of the gate state relative to the starting decision list:
the working directory is fixed, the session decision cache grew by exactly
the decisions directly appended to the decisions ledger, every HITL prompt
other than the stale-lock override is covered by such an append, and the
append-with-lock utility only ever wrote the diagnostics ledger. -/
def StInv (cwd : String) (dec0 : List Decision) (st : GateSt) : Prop :=
  st.task.cwd = cwd
  ∧ st.task.intentDecisions = dec0 ++ decisionAppends cwd st.fx
  ∧ countNonStale st.prompts ≤ (decisionAppends cwd st.fx).length
  ∧ lockedOnlyDiag cwd st.fx = true

/-- The run invariant on either summand of an early-return stage. -/
def SumInv (cwd : String) (dec0 : List Decision) : GateOut ⊕ GateSt → Prop
  | Sum.inl out => StInv cwd dec0 out.st
  | Sum.inr st => StInv cwd dec0 st

/-- Stale-blocked mutating call used to exhibit the undocumented prompt. -/
def c7tuStale : ToolUse := { name := "write_to_file", params := { path := some "src/x.ts" } }

/-- Session holding a stale-file block on the targeted path. -/
def c7staleTask : TaskState :=
  { gateTask with staleFileBlocks :=
      [("src/x.ts", { timestamp := "T-1", tool := "write_to_file" })] }

/-- Mutating call with no extractable target paths. -/
def c7tuNoTargets : ToolUse := { name := "write_to_file" }

theorem mem_of_mutating (n : String) (h : isMutatingTool n = true) :
    n ∈ mutatingTools := by
  exact List.mem_of_elem_eq_true h

theorem mutating_subset_destructive (n : String) :
    isMutatingTool n = true → isDestructiveTool n = true := by
  intro h
  have hm := mem_of_mutating n h
  apply List.elem_eq_true_of_mem
  simp only [mutatingTools, List.mem_cons, List.not_mem_nil, or_false] at hm
  simp only [destructiveTools, List.mem_cons, List.not_mem_nil, or_false]
  tauto

theorem mutating_ne_execute_command (n : String) :
    isMutatingTool n = true → n ≠ "execute_command" := by
  intro h
  have hm := mem_of_mutating n h
  simp only [mutatingTools, List.mem_cons, List.not_mem_nil, or_false] at hm
  rcases hm with h | h | h | h | h | h | h | h <;> simp [h]

theorem mutating_ne_select_intent (n : String) :
    isMutatingTool n = true → n ≠ "select_active_intent" := by
  intro h
  have hm := mem_of_mutating n h
  simp only [mutatingTools, List.mem_cons, List.not_mem_nil, or_false] at hm
  rcases hm with h | h | h | h | h | h | h | h <;> simp [h]

theorem execute_command_destructive : isDestructiveTool "execute_command" = true := by
  decide

/-! ## Theorems -/

/-- C8: classify_command returns destructive whenever the trimmed, lowercased
command string contains a redirection character, regardless of any safe
pattern in the project command-policy file or in the built-in safe pattern
list (the redirection check precedes all pattern stages). -/
theorem C8_redirect_commands_destructive (policy : Option CommandPolicy) (command : String)
    (h : (strContains (strToLower (strTrim command)) '<'
          || strContains (strToLower (strTrim command)) '>') = true) :
    classifyCommand policy command = CommandSafety.destructive := by
  unfold classifyCommand
  by_cases he : strToLower (strTrim command) = ""
  · simp [he]
  · simp [he, h]

/-- Witness for C8 at a concrete redirecting command, with a policy whose
safe list matches every command. -/
theorem C8_redirect_commands_destructive_witness :
    ((strContains (strToLower (strTrim "echo hi > out.txt")) '<'
      || strContains (strToLower (strTrim "echo hi > out.txt")) '>') = true)
    ∧ classifyCommand (some ⟨[fun _ => true], []⟩) "echo hi > out.txt"
        = CommandSafety.destructive :=
  ⟨by decide, C8_redirect_commands_destructive (some ⟨[fun _ => true], []⟩) "echo hi > out.txt"
    (by decide)⟩

/-- Helper for C9: one busy probe with attempts to spare sleeps and
retries. -/
theorem appendLockGo_step_busy (lockAt : Nat → LockProbe) (fp c lp : String)
    (attempt rem : Nat) (fx : List FsEff)
    (hb : lockAt attempt = LockProbe.busy) (hr : rem ≠ 0) :
    appendLockGo lockAt fp c lp attempt (rem + 1) fx =
      appendLockGo lockAt fp c lp (attempt + 1) rem (fx ++ [FsEff.sleep (25 * attempt)]) := by
  rw [appendLockGo, hb]
  simp [hr]

/-- Helper for C9: a busy probe on the last allowed attempt propagates the
lock error. -/
theorem appendLockGo_step_last (lockAt : Nat → LockProbe) (fp c lp : String)
    (attempt : Nat) (fx : List FsEff) (hb : lockAt attempt = LockProbe.busy) :
    appendLockGo lockAt fp c lp attempt 1 fx =
      { ok := false, errCode := some "EEXIST", appended := false, fx := fx } := by
  rw [appendLockGo, hb]
  simp

/-- Helper for C9: a free probe opens, appends, closes and unlinks. -/
theorem appendLockGo_step_free (lockAt : Nat → LockProbe) (fp c lp : String)
    (attempt rem : Nat) (fx : List FsEff) (hf : lockAt attempt = LockProbe.free) :
    appendLockGo lockAt fp c lp attempt (rem + 1) fx =
      { ok := true, errCode := none, appended := true,
        fx := fx ++ [FsEff.openLock lp, FsEff.appendFile fp c,
                     FsEff.closeLock, FsEff.unlinkLock lp] } := by
  rw [appendLockGo, hf]

/-- Helper for C9: when every attempt in the window finds the lock held, the
loop sleeps 25 milliseconds times each failing attempt number and ends with
the lock error, appending nothing. -/
theorem appendLockGo_allBusy (lockAt : Nat → LockProbe) (fp c lp : String) :
    ∀ rem attempt fx, (∀ t, attempt ≤ t → t ≤ attempt + rem → lockAt t = LockProbe.busy) →
    appendLockGo lockAt fp c lp attempt (rem + 1) fx =
      { ok := false, errCode := some "EEXIST", appended := false,
        fx := fx ++ (List.range rem).map (fun i => FsEff.sleep (25 * (attempt + i))) } := by
  intro rem
  induction rem with
  | zero =>
      intro attempt fx h
      rw [appendLockGo_step_last lockAt fp c lp attempt fx (h attempt (le_refl _) (by omega))]
      simp
  | succ r ih =>
      intro attempt fx h
      have hb : lockAt attempt = LockProbe.busy := h attempt (le_refl _) (by omega)
      rw [appendLockGo_step_busy lockAt fp c lp attempt (r + 1) fx hb (by omega),
        ih (attempt + 1) (fx ++ [FsEff.sleep (25 * attempt)])
          (fun t ht1 ht2 => h t (by omega) (by omega))]
      simp only [List.append_assoc, List.singleton_append, List.range_succ_eq_map,
        List.map_cons, List.map_map]
      have hmap : (fun i => FsEff.sleep (25 * (attempt + 1 + i))) =
          ((fun i => FsEff.sleep (25 * (attempt + i))) ∘ Nat.succ) := by
        funext i
        simp only [Function.comp_apply]
        congr 1
        omega
      rw [hmap, show attempt + 0 = attempt from rfl]

/-- Helper for C9: a free probe at some attempt in the window, preceded only
by busy probes, yields the successful open-append-close-unlink tail after
the accumulated sleeps. -/
theorem appendLockGo_busyThenFree (lockAt : Nat → LockProbe) (fp c lp : String) :
    ∀ rem attempt fx k, attempt ≤ k → k < attempt + rem →
    (∀ t, attempt ≤ t → t < k → lockAt t = LockProbe.busy) →
    lockAt k = LockProbe.free →
    appendLockGo lockAt fp c lp attempt rem fx =
      { ok := true, errCode := none, appended := true,
        fx := fx ++ (List.range (k - attempt)).map (fun i => FsEff.sleep (25 * (attempt + i)))
              ++ [FsEff.openLock lp, FsEff.appendFile fp c,
                  FsEff.closeLock, FsEff.unlinkLock lp] } := by
  intro rem
  induction rem with
  | zero =>
      intro attempt fx k h1 h2 _ _
      omega
  | succ r ih =>
      intro attempt fx k h1 h2 hb hf
      by_cases hak : attempt = k
      · subst hak
        rw [appendLockGo_step_free lockAt fp c lp attempt r fx hf]
        simp
      · have hlt : attempt < k := by omega
        have hbusy : lockAt attempt = LockProbe.busy := hb attempt (le_refl _) hlt
        have hr : r ≠ 0 := by omega
        rw [appendLockGo_step_busy lockAt fp c lp attempt r fx hbusy hr,
          ih (attempt + 1) (fx ++ [FsEff.sleep (25 * attempt)]) k (by omega) (by omega)
            (fun t ht1 ht2 => hb t (by omega) ht2) hf]
        have hk : k - attempt = (k - (attempt + 1)) + 1 := by omega
        rw [hk, List.range_succ_eq_map]
        simp only [List.append_assoc, List.singleton_append, List.map_cons, List.map_map]
        have hmap : (fun i => FsEff.sleep (25 * (attempt + 1 + i))) =
            ((fun i => FsEff.sleep (25 * (attempt + i))) ∘ Nat.succ) := by
          funext i
          simp only [Function.comp_apply]
          congr 1
          omega
        rw [hmap, show attempt + 0 = attempt from rfl]

/-- C9: append acquires the sidecar lockfile with exclusive-create
semantics; when the lock already exists it backs off 25 milliseconds times
the attempt number and retries, for at most 8 attempts total; after the 8th
failed acquisition the lock error propagates with nothing appended; on a
successful acquisition it appends the content and removes the lock. -/
theorem C9_appendWithLock_backoff_and_exhaustion :
    (∀ lockAt fp c, (∀ t, 1 ≤ t → t ≤ 8 → lockAt t = LockProbe.busy) →
       appendWithLock lockAt fp c =
         { ok := false, errCode := some "EEXIST", appended := false,
           fx := [FsEff.mkdirp (dirname fp), FsEff.sleep 25, FsEff.sleep 50, FsEff.sleep 75,
                  FsEff.sleep 100, FsEff.sleep 125, FsEff.sleep 150, FsEff.sleep 175] })
    ∧ (∀ lockAt fp c k, 1 ≤ k → k ≤ 8 →
         (∀ t, 1 ≤ t → t < k → lockAt t = LockProbe.busy) →
         lockAt k = LockProbe.free →
         appendWithLock lockAt fp c =
           { ok := true, errCode := none, appended := true,
             fx := FsEff.mkdirp (dirname fp) ::
               ((List.range (k - 1)).map (fun i => FsEff.sleep (25 * (1 + i))) ++
                [FsEff.openLock (fp ++ ".lock"), FsEff.appendFile fp c,
                 FsEff.closeLock, FsEff.unlinkLock (fp ++ ".lock")]) }) := by
  constructor
  · intro lockAt fp c h
    have step := appendLockGo_allBusy lockAt fp c (fp ++ ".lock") 7 1
      [FsEff.mkdirp (dirname fp)] (fun t ht1 ht2 => h t ht1 (by omega))
    unfold appendWithLock maxAttempts
    rw [show (8 : Nat) = 7 + 1 from rfl, step]
    norm_num [List.range_succ]
  · intro lockAt fp c k h1 h8 hb hf
    have step := appendLockGo_busyThenFree lockAt fp c (fp ++ ".lock") 8 1
      [FsEff.mkdirp (dirname fp)] k h1 (by omega) (fun t ht1 ht2 => hb t ht1 ht2) hf
    unfold appendWithLock maxAttempts
    rw [step]
    simp

/-- Witness for C9: the always-busy oracle exhausts all 8 attempts; the
always-free oracle succeeds on the first attempt with no sleeps. -/
theorem C9_appendWithLock_backoff_and_exhaustion_witness :
    appendWithLock (fun _ => LockProbe.busy) "/w/.orchestration/a.jsonl" "x" =
      { ok := false, errCode := some "EEXIST", appended := false,
        fx := [FsEff.mkdirp "/w/.orchestration", FsEff.sleep 25, FsEff.sleep 50,
               FsEff.sleep 75, FsEff.sleep 100, FsEff.sleep 125, FsEff.sleep 150,
               FsEff.sleep 175] }
    ∧ appendWithLock (fun _ => LockProbe.free) "/w/.orchestration/a.jsonl" "x" =
      { ok := true, errCode := none, appended := true,
        fx := [FsEff.mkdirp "/w/.orchestration",
               FsEff.openLock "/w/.orchestration/a.jsonl.lock",
               FsEff.appendFile "/w/.orchestration/a.jsonl" "x",
               FsEff.closeLock, FsEff.unlinkLock "/w/.orchestration/a.jsonl.lock"] } := by
  constructor
  · have h := C9_appendWithLock_backoff_and_exhaustion.1 (fun _ => LockProbe.busy)
      "/w/.orchestration/a.jsonl" "x" (fun _ _ _ => rfl)
    rw [h]
    decide
  · have h := C9_appendWithLock_backoff_and_exhaustion.2 (fun _ => LockProbe.free)
      "/w/.orchestration/a.jsonl" "x" 1 (le_refl _) (by omega)
      (fun t ht1 ht2 => absurd (lt_of_le_of_lt ht1 ht2) (lt_irrefl 1)) rfl
    rw [h]
    decide

/-- C3: a scope entry containing a glob metacharacter is matched through the
gitignore-style matcher against the POSIX-relative target; any other entry
is a prefix match on the absolute path, exact or followed by a separator;
in particular the entry src matches target src/foo.ts under /w and does not
match srctool.ts. -/
theorem C3_matchesScope_glob_vs_absRoot (ig : String → String → Bool)
    (scope absTarget relTarget cwd : String) :
    (hasGlobChars (toPosixPath scope) = true →
       matchesScope ig scope absTarget relTarget cwd = ig (toPosixPath scope) relTarget)
    ∧ (hasGlobChars (toPosixPath scope) = false →
       matchesScope ig scope absTarget relTarget cwd =
         (absTarget == resolvePath cwd scope
          || strStartsWith absTarget (resolvePath cwd scope ++ "/")))
    ∧ matchesScope ig "src" "/w/src/foo.ts" "src/foo.ts" "/w" = true
    ∧ matchesScope ig "src" "/w/srctool.ts" "srctool.ts" "/w" = false := by
  refine ⟨?_, ?_, rfl, rfl⟩
  · intro h
    simp [matchesScope, h]
  · intro h
    simp [matchesScope, h]

/-- Witness for C3: a glob entry goes through the gitignore matcher, a
literal entry uses the absolute prefix test. -/
theorem C3_matchesScope_glob_vs_absRoot_witness :
    hasGlobChars (toPosixPath "*.ts") = true
    ∧ matchesScope (fun _ _ => true) "*.ts" "/w/a.ts" "a.ts" "/w" = true
    ∧ hasGlobChars (toPosixPath "src") = false
    ∧ matchesScope (fun _ _ => true) "src" "/w/lib/b.ts" "lib/b.ts" "/w" = false := by
  refine ⟨by decide, ?_, by decide, ?_⟩
  · rw [(C3_matchesScope_glob_vs_absRoot (fun _ _ => true) "*.ts" "/w/a.ts" "a.ts" "/w").1
      (by decide)]
  · rw [(C3_matchesScope_glob_vs_absRoot (fun _ _ => true) "src" "/w/lib/b.ts" "lib/b.ts"
      "/w").2.1 (by decide)]
    decide

/-- Insert-then-lookup on the association maps. -/
theorem assocGet_assocSet_self {α : Type} (l : List (String × α)) (k : String) (v : α) :
    assocGet (assocSet l k v) k = some v := by
  induction l with
  | nil => simp [assocSet, assocGet]
  | cons hd tl ih =>
      by_cases hk : hd.fst = k
      · simp [assocSet, assocGet, hk]
      · cases hd with
        | mk k0 v0 =>
            simp only [assocSet, assocGet]
            simp only at hk
            rw [if_neg hk, assocGet, if_neg hk]
            exact ih

/-- C2: given a snapshot for the tool call and path whose existed flag is
set, the optimistic lock check declares the path stale exactly when the
current existence disagrees with the flag or, both sides existing as text,
the hash of the current bytes differs from the hash of the snapshot before
content; a binary snapshot or binary current content is never stale here;
and every stale detection yields the stale_file REQ-007 error carrying the
expected and actual hashes, records the VerificationFailure, and marks the
path stale-blocked. -/
theorem C2_checkOptimisticLock_spec
    (hash : List Nat → String) (fsys : String → Option (List Nat)) (now : String)
    (task : TaskState) (tcid relPath tool : String)
    (snapshotMap : List (String × SnapshotEntry)) (snapshot : SnapshotEntry) (ex : Bool)
    (hm : assocGet task.traceSnapshots tcid = some snapshotMap)
    (hs : getSnapshotEntry snapshotMap relPath = some snapshot)
    (hex : snapshot.existed = some ex) :
    (snapshot.binary = some true →
       checkOptimisticLock hash fsys now task (some tcid) relPath tool = (none, task))
    ∧ (∀ buf, fsys (resolvePath task.cwd relPath) = some buf → isBinaryBuffer buf = true →
       checkOptimisticLock hash fsys now task (some tcid) relPath tool = (none, task))
    ∧ (snapshot.binary ≠ some true →
       (fsys (resolvePath task.cwd relPath)).map isBinaryBuffer ≠ some true →
       (let cur := fsys (resolvePath task.cwd relPath)
        let codeExpectedHash : Option String :=
          if ex then snapshot.before.map (fun b => hash (strBytes b)) else none
        let staleB : Bool :=
          (cur.isSome != ex) ||
          (ex && cur.isSome && (codeExpectedHash != cur.map hash))
        let aid : String := match task.activeIntent with
          | none => ""
          | some ai => ai.id
        let vf : VerificationFailure :=
          { vftype := "stale_file", intent_id := aid, tool := tool, path := relPath,
            expected_hash := codeExpectedHash, actual_hash := cur.map hash,
            timestamp := now }
        let errVal : HookErr :=
          { error_type := "stale_file", code := "REQ-007", intent_id := aid,
            tool := some tool,
            message := "File changed since tool started; refresh before retrying",
            extras := [("path", ExtraVal.str relPath),
                       ("expected_hash", ExtraVal.ostr codeExpectedHash),
                       ("actual_hash", ExtraVal.ostr (cur.map hash))] }
        (staleB = false →
           checkOptimisticLock hash fsys now task (some tcid) relPath tool = (none, task))
        ∧ (staleB = true →
           checkOptimisticLock hash fsys now task (some tcid) relPath tool =
             (some errVal,
              markStaleFile now { task with lastVerificationFailure := some vf } relPath tool)
           ∧ getStaleFileBlock
               (checkOptimisticLock hash fsys now task (some tcid) relPath tool).snd relPath
               = some ⟨now, tool⟩))) := by
  refine ⟨?_, ?_, ?_⟩
  · intro hb
    simp [checkOptimisticLock, hm, hs, hb]
  · intro buf hf hbin
    by_cases hb : snapshot.binary = some true
    · simp [checkOptimisticLock, hm, hs, hb]
    · simp [checkOptimisticLock, hm, hs, hb, hf, hbin]
  · intro hb hcur
    simp only [checkOptimisticLock, hm, hs, if_neg hb]
    rcases hfs : fsys (resolvePath task.cwd relPath) with _ | buf
    · simp only [hfs, Option.map_none, Option.getD_none, Bool.false_eq_true, if_false,
        Option.isSome_none, hex, Option.getD_some]
      cases ex with
      | false =>
          refine ⟨fun _ => by simp, fun hst => by simp at hst⟩
      | true =>
          refine ⟨fun hst => by simp at hst, fun _ => ?_⟩
          constructor
          · cases hbf : snapshot.before with
            | none => simp [hbf, serializeHookError]
            | some b => simp [hbf, serializeHookError]
          · simp only [getStaleFileBlock, markStaleFile]
            cases hbf : snapshot.before with
            | none =>
                simp only [hbf]
                simp [assocGet_assocSet_self]
            | some b =>
                simp only [hbf]
                simp [assocGet_assocSet_self]
    · rcases hcur' : isBinaryBuffer buf with _ | _
      · simp only [hfs, hcur', Option.map_some, Option.getD_some, Bool.false_eq_true,
          if_false, Option.isSome_some, hex, Option.getD_some]
        cases ex with
        | false =>
            refine ⟨fun hst => by simp at hst, fun _ => ?_⟩
            constructor
            · cases hbf : snapshot.before with
              | none => simp [hbf, serializeHookError, hcur']
              | some b => simp [hbf, serializeHookError, hcur']
            · simp only [getStaleFileBlock, markStaleFile]
              cases hbf : snapshot.before with
              | none =>
                  simp only [hbf]
                  simp [assocGet_assocSet_self, hcur']
              | some b =>
                  simp only [hbf]
                  simp [assocGet_assocSet_self, hcur']
        | true =>
            cases hbf : snapshot.before with
            | none =>
                refine ⟨fun hst => by simp [hbf, serializeHookError, hcur'] at hst, fun _ => ?_⟩
                refine ⟨by simp [hbf, serializeHookError, hcur'], ?_⟩
                simp only [getStaleFileBlock, markStaleFile, hbf]
                simp [assocGet_assocSet_self, hcur']
            | some b =>
                by_cases hh : hash (strBytes b) = hash buf
                · refine ⟨fun _ => by simp [hbf, hh, serializeHookError, hcur'], fun hst => by simp [hbf, hh, serializeHookError, hcur'] at hst⟩
                · refine ⟨fun hst => by simp [hbf, hh, serializeHookError, hcur'] at hst, fun _ => ?_⟩
                  refine ⟨by simp [hbf, hh, serializeHookError, hcur'], ?_⟩
                  simp only [getStaleFileBlock, markStaleFile, hbf]
                  simp [hh, assocGet_assocSet_self, hcur']
      · exfalso
        apply hcur
        simp [hfs, hcur']

/-- Witness for C2: a snapshot that recorded an existing text file whose
file has since disappeared is stale, and the path ends up stale-blocked. -/
theorem C2_checkOptimisticLock_spec_witness :
    (checkOptimisticLock c2hash c2fsys "T1" c2task (some "call1") "src/a.ts"
      "write_to_file").fst.isSome = true
    ∧ getStaleFileBlock
        (checkOptimisticLock c2hash c2fsys "T1" c2task (some "call1") "src/a.ts"
          "write_to_file").snd "src/a.ts" = some ⟨"T1", "write_to_file"⟩ := by
  have h := (C2_checkOptimisticLock_spec c2hash c2fsys "T1" c2task "call1" "src/a.ts"
    "write_to_file" c2map c2snap true (by decide) (by decide) (by decide)).2.2
    (by decide) (by decide)
  simp only at h
  have hstale := h.2 (by decide)
  refine ⟨?_, hstale.2⟩
  rw [hstale.1]
  rfl

/-- Counterexample for C4: the claim counts an entry whose top-level
intent_id matches as linked, but the context injector hook only accepts
specification-related conversation links, so this entry is left out of the
brief history. -/
theorem C4_briefHistory_counterexample :
    claimTraceLinked "INT-1" c4Trace = true
    ∧ claimRelatedTraces "INT-1" [some c4Trace] = [c4Trace]
    ∧ hookTraceLinked "INT-1" c4Trace = false
    ∧ loadIntentContextModel [c4Intent] [some c4Trace] none "INT-1" =
        Except.ok { intent := c4Intent, briefHistory := [], sharedKnowledge := "" } := by
  refine ⟨by decide, by decide, by decide, rfl⟩

/-- C4 as amended: for a valid IN_PROGRESS intent id, the context block
carries as brief history the last five parseable trace entries holding a
conversation related item of type specification whose value is the selected
id; the top-level intent_id field of an entry is not consulted by the
context injector hook (only the select tool handler reads it). -/
theorem C4_contextInjector_briefHistory (intents : List IntentSpec)
    (parsedLines : List (Option TraceEntry)) (shared : Option String)
    (intentId : String) (selected : IntentSpec)
    (hfind : intents.find? (fun i => i.id = intentId) = some selected)
    (hst : selected.status = "IN_PROGRESS") :
    ∃ block, loadIntentContextModel intents parsedLines shared intentId = Except.ok block
      ∧ block.briefHistory = hookRelatedTraces intentId parsedLines
      ∧ block.briefHistory.length ≤ 5
      ∧ ∀ t ∈ block.briefHistory, hookTraceLinked intentId t = true := by
  refine ⟨{ intent := selected, briefHistory := hookRelatedTraces intentId parsedLines,
            sharedKnowledge := shared.getD "" }, ?_, rfl, ?_, ?_⟩
  · simp [loadIntentContextModel, hfind, hst]
  · simp only [hookRelatedTraces, List.length_drop]
    omega
  · intro t ht
    simp only [hookRelatedTraces] at ht
    exact List.of_mem_filter (List.mem_of_mem_drop ht)

/-- Witness for C4 as amended: a ledger with six specification-linked
entries and one top-level-only entry yields the last five linked ones. -/
theorem C4_contextInjector_briefHistory_witness :
    ∃ block,
      loadIntentContextModel [c4Intent]
        ((List.range 6).map (fun i =>
          some { id := toString i, timestamp := "T",
                 files := [{ relative_path := "a",
                             conversations := [{ related :=
                               [{ rtype := "specification", value := "INT-1" }] }] }] })
         ++ [some c4Trace])
        none "INT-1" = Except.ok block
      ∧ block.briefHistory.length ≤ 5 := by
  obtain ⟨block, hok, _, hlen, _⟩ := C4_contextInjector_briefHistory [c4Intent]
    ((List.range 6).map (fun i =>
      some { id := toString i, timestamp := "T",
             files := [{ relative_path := "a",
                         conversations := [{ related :=
                           [{ rtype := "specification", value := "INT-1" }] }] }] })
     ++ [some c4Trace])
    none "INT-1" c4Intent (by decide) rfl
  exact ⟨block, hok, hlen⟩

/-- C1: a non-partial call to a mutating tool with no active intent is
vetoed by the scope gate with the no-active-intent error, without any HITL
prompt, and the driver does not invoke the tool handler. -/
theorem C1_no_active_intent_blocks (env : Env) (task : TaskState) (tu : ToolUse)
    (hp : tu.isPartial = false)
    (hm : isMutatingTool tu.name = true)
    (haid : (match task.activeIntent with | none => "" | some ai => ai.id) = "") :
    (scopeGate env task tu).res =
      { shouldProceed := false, errorMessage := some (ErrMsg.plain noActiveIntentMsg) }
    ∧ (scopeGate env task tu).st.prompts = []
    ∧ (dispatchToolCall [scopeEnforcementHookFn env] task tu).handlerInvoked = false := by
  have hd := mutating_subset_destructive tu.name hm
  have hgate : scopeGate env task tu =
      vetoPlain { task := task, tu := tu } noActiveIntentMsg := by
    unfold scopeGate
    rw [hp]
    simp only [Bool.false_eq_true, if_false, haid, hd]
    simp
  refine ⟨by rw [hgate]; rfl, by rw [hgate]; rfl, ?_⟩
  unfold dispatchToolCall executePreHooks executePreHooksGo scopeEnforcementHookFn
  simp only [applicableTo, hgate]
  simp [vetoPlain]

/-- Witness for C1 at a concrete mutating call with no active intent. -/
theorem C1_no_active_intent_blocks_witness :
    (scopeGate baseEnv { cwd := "/w" } { name := "write_to_file" }).res.shouldProceed = false
    ∧ (dispatchToolCall [scopeEnforcementHookFn baseEnv] { cwd := "/w" }
        { name := "write_to_file" }).handlerInvoked = false := by
  have h := C1_no_active_intent_blocks baseEnv { cwd := "/w" } { name := "write_to_file" }
    rfl (by decide) rfl
  exact ⟨by rw [h.1], h.2.2⟩


theorem getUserIntentClassification_fields (env : Env) (task : TaskState) :
    ∃ c, (getUserIntentClassification env task).2.1 =
      { task with lastUserIntentClassification := c } := by
  obtain ⟨cwd, ai, sfb, dia, ac, idec, lum, luic, lvf, ts, drt⟩ := task
  cases lum with
  | none =>
      refine ⟨luic, ?_⟩
      simp [getUserIntentClassification]
  | some t =>
      by_cases htrim : strTrim t = ""
      · refine ⟨luic, ?_⟩
        simp [getUserIntentClassification, htrim]
      · cases luic with
        | none =>
            refine ⟨some { env.classifyIntent t with messageHash := some (env.hashMessage t) }, ?_⟩
            simp [getUserIntentClassification, htrim]
        | some cached =>
            by_cases hmh : cached.messageHash = some (env.hashMessage t)
            · refine ⟨some cached, ?_⟩
              simp [getUserIntentClassification, htrim, hmh]
            · refine ⟨some { env.classifyIntent t with messageHash := some (env.hashMessage t) }, ?_⟩
              simp [getUserIntentClassification, htrim, hmh]

/-- The scope-violation loop never changes the tool call carried in the
gate state. -/
theorem scopeViolationLoop_tu (env : Env) (aid : String) :
    ∀ l st, (scopeViolationLoop env st aid l).st.tu = st.tu := by
  intro l
  induction l with
  | nil =>
      intro st
      simp [scopeViolationLoop, proceedOut]
  | cons p rest ih =>
      intro st
      simp only [scopeViolationLoop]
      by_cases ha : env.answer st.prompts.length = true
      · simp only [askApproval, ha, if_true]
        rw [ih]
        simp [recordD, recordDecision]
      · simp only [askApproval, ha, if_false]
        simp [vetoErr, recordD, recordDecision]


theorem destrOpStage_tu_inl (env : Env) (st : GateSt) (aid : String)
    (ic : Option UserIntentClassification) (targetPaths : List String)
    (rdp : Bool) (scopeViolations : List String) (opSummary : Option String)
    (out : GateOut)
    (h : destrOpStage env st aid ic targetPaths rdp scopeViolations opSummary = Sum.inl out) :
    out.st.tu = st.tu := by
  unfold destrOpStage at h
  dsimp only at h
  split at h
  · split at h
    · cases h
      rfl
    · split at h
      · cases h
        rfl
      · split at h
        · cases h
        · cases h
          split <;> simp [recordD, recordDecision, askApproval, vetoErr]
  · cases h

theorem destrOpStage_tu_inr (env : Env) (st : GateSt) (aid : String)
    (ic : Option UserIntentClassification) (targetPaths : List String)
    (rdp : Bool) (scopeViolations : List String) (opSummary : Option String)
    (st1 : GateSt)
    (h : destrOpStage env st aid ic targetPaths rdp scopeViolations opSummary = Sum.inr st1) :
    st1.tu = st.tu := by
  unfold destrOpStage at h
  dsimp only at h
  split at h
  · split at h
    · cases h
    · split at h
      · cases h
      · split at h
        · cases h
          split <;> simp [recordD, recordDecision, askApproval]
        · cases h
  · cases h
    rfl


theorem afterMetadata_tu (env : Env) (st : GateSt) (aid : String)
    (ic : Option UserIntentClassification) (targetPaths : List String) :
    (afterMetadata env st aid ic targetPaths).st.tu = st.tu := by
  unfold afterMetadata
  dsimp only
  by_cases hempty : targetPaths = []
  · rw [if_pos hempty]
    by_cases ha : env.answer st.prompts.length = true <;>
      simp [askApproval, ha, recordD, recordDecision, proceedOut, vetoErr]
  · rw [if_neg hempty]
    split
    · rename_i out heq
      exact destrOpStage_tu_inl env st aid ic targetPaths _ _ _ out heq
    · rename_i st1 heq
      rw [scopeViolationLoop_tu]
      exact destrOpStage_tu_inr env st aid ic targetPaths _ _ _ st1 heq


/-- Reduction of the gate on a non-partial mutating call with a live,
non-ignored active intent: the run is the metadata stage followed by the
shared tail, over the classification-updated session. -/
theorem scopeGate_mutating_reduce (env : Env) (task : TaskState) (tu : ToolUse)
    (ai : ActiveIntent)
    (hp : tu.isPartial = false)
    (hm : isMutatingTool tu.name = true)
    (hai : task.activeIntent = some ai)
    (hid : ai.id ≠ "")
    (hig : intentIgnored env ai.id = false) :
    scopeGate env task tu =
      match metadataStage env
          { task := (getUserIntentClassification env task).2.1, tu := tu,
            prompts := [], fx := (getUserIntentClassification env task).2.2 }
          ai.id (extractTargetPaths tu) with
      | Sum.inl out => out
      | Sum.inr st2 =>
          afterMetadata env st2 ai.id (getUserIntentClassification env task).1
            (extractTargetPaths tu) := by
  have hd := mutating_subset_destructive tu.name hm
  have hne1 : (tu.name == "execute_command") = false :=
    beq_eq_false_iff_ne.mpr (mutating_ne_execute_command tu.name hm)
  have hne2 : (tu.name == "select_active_intent") = false :=
    beq_eq_false_iff_ne.mpr (mutating_ne_select_intent tu.name hm)
  have hbid : (ai.id == "") = false := beq_eq_false_iff_ne.mpr hid
  unfold scopeGate
  rw [hp, hai]
  dsimp only
  simp only [hne1, hd, hbid, hne2, hig, bne, Bool.false_or, Bool.not_false, Bool.and_false,
    Bool.true_and, Bool.and_true, Bool.false_eq_true, if_false, Bool.not_true,
    eq_self_iff_true, if_true]

/-- Reduction of the metadata stage when no target path is stale-blocked:
fill of missing metadata, then the two metadata vetoes, then pass. -/
theorem metadataStage_noStale_eq (env : Env) (st : GateSt) (aid : String) (tp : List String)
    (hm : isMutatingTool st.tu.name = true)
    (hb : tp.filter (fun p => (getStaleFileBlock st.task p).isSome) = []) :
    metadataStage env st aid tp =
      (let md := getMutationMetadata st.tu
       let autoId : String := match md.1 with | some v => v | none => aid
       let autoClass : String := match md.2 with | some v => v | none => "INTENT_EVOLUTION"
       let st2 : GateSt :=
         if md.1.getD "" = "" || md.2.getD "" = "" then
           { st with tu := applyMutationMetadata st.tu autoId autoClass }
         else st
       if autoId ≠ aid then
         Sum.inl (vetoErr st2 (serializeHookError
           { error_type := "intent_mismatch", code := "REQ-004", intent_id := aid,
             message := "Provided intent_id does not match active intent" }
           [("provided_intent_id", ExtraVal.str autoId)]))
       else if autoClass ≠ "AST_REFACTOR" && autoClass ≠ "INTENT_EVOLUTION" then
         Sum.inl (vetoErr st2 (serializeHookError
           { error_type := "invalid_metadata", code := "REQ-005", intent_id := aid,
             message := "mutation_class must be AST_REFACTOR or INTENT_EVOLUTION" }
           [("mutation_class", ExtraVal.str autoClass)]))
       else Sum.inr st2) := by
  unfold metadataStage
  dsimp only
  rw [hm]
  simp only [Bool.not_true, Bool.false_eq_true, if_false, hb]

/-- C5: on a non-partial mutating call passing the earlier gates, missing
intent_id is filled with the active intent id and missing mutation_class
with INTENT_EVOLUTION; a resulting intent_id different from the active id is
vetoed with intent_mismatch REQ-004, and a resulting mutation_class outside
the two allowed values is vetoed with invalid_metadata REQ-005. -/
theorem C5_metadata_autoinjection (env : Env) (task : TaskState) (tu : ToolUse)
    (ai : ActiveIntent)
    (hp : tu.isPartial = false) (hm : isMutatingTool tu.name = true)
    (hai : task.activeIntent = some ai) (hid : ai.id ≠ "")
    (hig : intentIgnored env ai.id = false)
    (hblocked : (extractTargetPaths tu).filter
      (fun p => (getStaleFileBlock task p).isSome) = []) :
    ((scopeGate env task tu).st.tu =
       (if (getMutationMetadata tu).1.getD "" = "" || (getMutationMetadata tu).2.getD "" = ""
        then applyMutationMetadata tu
            (match (getMutationMetadata tu).1 with | some v => v | none => ai.id)
            (match (getMutationMetadata tu).2 with | some v => v | none => "INTENT_EVOLUTION")
        else tu))
    ∧ ((match (getMutationMetadata tu).1 with | some v => v | none => ai.id) ≠ ai.id →
        (scopeGate env task tu).res =
          { shouldProceed := false, errorMessage := some (ErrMsg.structured
            { error_type := "intent_mismatch", code := "REQ-004", intent_id := ai.id,
              tool := none,
              message := "Provided intent_id does not match active intent",
              extras := [("provided_intent_id", ExtraVal.str
                (match (getMutationMetadata tu).1 with | some v => v | none => ai.id))] }) })
    ∧ ((match (getMutationMetadata tu).1 with | some v => v | none => ai.id) = ai.id →
        (match (getMutationMetadata tu).2 with | some v => v | none => "INTENT_EVOLUTION")
          ≠ "AST_REFACTOR" →
        (match (getMutationMetadata tu).2 with | some v => v | none => "INTENT_EVOLUTION")
          ≠ "INTENT_EVOLUTION" →
        (scopeGate env task tu).res =
          { shouldProceed := false, errorMessage := some (ErrMsg.structured
            { error_type := "invalid_metadata", code := "REQ-005", intent_id := ai.id,
              tool := none,
              message := "mutation_class must be AST_REFACTOR or INTENT_EVOLUTION",
              extras := [("mutation_class", ExtraVal.str
                (match (getMutationMetadata tu).2 with
                 | some v => v | none => "INTENT_EVOLUTION"))] }) }) := by
  have hred := scopeGate_mutating_reduce env task tu ai hp hm hai hid hig
  obtain ⟨c, hc⟩ := getUserIntentClassification_fields env task
  have hb1 : (extractTargetPaths tu).filter
      (fun p => (getStaleFileBlock (getUserIntentClassification env task).2.1 p).isSome) = [] := by
    rw [hc]
    simpa [getStaleFileBlock] using hblocked
  have hmeta := metadataStage_noStale_eq env
    { task := (getUserIntentClassification env task).2.1, tu := tu,
      prompts := [], fx := (getUserIntentClassification env task).2.2 }
    ai.id (extractTargetPaths tu) hm hb1
  rw [hmeta] at hred
  dsimp only at hred
  by_cases hmm : (match (getMutationMetadata tu).1 with | some v => v | none => ai.id) = ai.id
  · rw [if_neg (by simp [hmm])] at hred
    by_cases hcl : ((match (getMutationMetadata tu).2 with
        | some v => v | none => "INTENT_EVOLUTION") ≠ "AST_REFACTOR"
      ∧ (match (getMutationMetadata tu).2 with
        | some v => v | none => "INTENT_EVOLUTION") ≠ "INTENT_EVOLUTION")
    · rw [if_pos (by simp [hcl.1, hcl.2])] at hred
      dsimp only at hred
      refine ⟨?_, fun h => absurd hmm h, fun _ h1 h2 => ?_⟩
      · rw [hred]
        split <;> rfl
      · rw [hred]
        rfl
    · have hcl' : ¬((match (getMutationMetadata tu).2 with
          | some v => v | none => "INTENT_EVOLUTION") ≠ "AST_REFACTOR"
        && (match (getMutationMetadata tu).2 with
          | some v => v | none => "INTENT_EVOLUTION") ≠ "INTENT_EVOLUTION") = true := by
        intro hx
        apply hcl
        constructor
        · intro he
          rw [he] at hx
          simp at hx
        · intro he
          rw [he] at hx
          simp at hx
      rw [if_neg hcl'] at hred
      dsimp only at hred
      refine ⟨?_, fun h => absurd hmm h, fun _ h1 h2 => absurd ⟨h1, h2⟩ hcl⟩
      rw [hred]
      rw [afterMetadata_tu]
      split <;> rfl
  · rw [if_pos hmm] at hred
    dsimp only at hred
    refine ⟨?_, fun _ => ?_, fun h => absurd h hmm⟩
    · rw [hred]
      split <;> rfl
    · rw [hred]
      rfl

/-- Witness for C5: missing metadata is filled in on both argument bags, and
a mismatched provided intent id is vetoed. -/
theorem C5_metadata_autoinjection_witness :
    (scopeGate baseEnv gateTask
      { name := "write_to_file", params := { path := some "src/foo.ts" } }).st.tu.params.intent_id
      = some "i1"
    ∧ (scopeGate baseEnv gateTask
      { name := "write_to_file",
        params := { path := some "src/foo.ts" } }).st.tu.params.mutation_class
      = some "INTENT_EVOLUTION"
    ∧ (scopeGate baseEnv gateTask
      { name := "write_to_file",
        params := { path := some "src/foo.ts", intent_id := some "i2",
                    mutation_class := some "AST_REFACTOR" } }).res.shouldProceed = false := by
  have h1 := (C5_metadata_autoinjection baseEnv gateTask
    { name := "write_to_file", params := { path := some "src/foo.ts" } }
    { id := "i1", context := IntentCtx.obj ["src"], selectedAt := "" }
    rfl (by decide) rfl (by decide) rfl (by decide)).1
  have h2 := (C5_metadata_autoinjection baseEnv gateTask
    { name := "write_to_file",
      params := { path := some "src/foo.ts", intent_id := some "i2",
                  mutation_class := some "AST_REFACTOR" } }
    { id := "i1", context := IntentCtx.obj ["src"], selectedAt := "" }
    rfl (by decide) rfl (by decide) rfl (by decide)).2.1 (by decide)
  refine ⟨?_, ?_, ?_⟩
  · rw [h1]
    decide
  · rw [h1]
    decide
  · rw [h2]

/-- Reduction of the gate on a non-partial execute_command call with a live,
non-ignored active intent: the run is the command branch over the unchanged
session. -/
theorem scopeGate_command_reduce (env : Env) (task : TaskState) (tu : ToolUse)
    (ai : ActiveIntent)
    (hp : tu.isPartial = false)
    (hname : tu.name = "execute_command")
    (hai : task.activeIntent = some ai)
    (hid : ai.id ≠ "")
    (hig : intentIgnored env ai.id = false) :
    scopeGate env task tu =
      commandBranch env { task := task, tu := tu, prompts := [], fx := [] } ai.id := by
  have hbe : (tu.name == "execute_command") = true := by
    rw [hname]
    rfl
  have hbid : (ai.id == "") = false := beq_eq_false_iff_ne.mpr hid
  unfold scopeGate
  rw [hp, hai]
  dsimp only
  simp only [hbe, hbid, hig, bne, Bool.not_false, Bool.not_true, Bool.true_or, Bool.and_false,
    Bool.true_and, Bool.and_true, Bool.false_eq_true, if_false, eq_self_iff_true, if_true]

/-- Containment after the session command-approval cache update. -/
theorem markCommandApproved_contains (t : TaskState) (c : String) :
    (markCommandApproved t c).approvedCommands.contains c = true := by
  unfold markCommandApproved
  by_cases h : t.approvedCommands.contains c = true
  · rw [if_pos h]
    exact h
  · rw [if_neg h]
    apply List.elem_eq_true_of_mem
    simp

/-- C6: a destructive execute_command whose exact command string, tool and
active intent id match an approved decision in the persisted decisions log
is allowed without any HITL prompt; the reuse is recorded and the command
cached as approved.  The persisted log is read from disk, so approvals
written by other sessions qualify. -/
theorem C6_persisted_command_approval_reused (env : Env) (task : TaskState) (tu : ToolUse)
    (ai : ActiveIntent) (d0 : Decision) (command : String)
    (hp : tu.isPartial = false)
    (hname : tu.name = "execute_command")
    (hai : task.activeIntent = some ai)
    (hid : ai.id ≠ "")
    (hig : intentIgnored env ai.id = false)
    (hcmd : command = env.unescapeHtml
      ((orTruthy tu.nativeArgs.command tu.params.command).getD ""))
    (hct : strTrim command ≠ "")
    (hclass : classifyCommand env.policy (unwrapShellCommand command)
      = CommandSafety.destructive)
    (hfind : findMatchingApproval env.persistedDecisions
      (fun d => d.tool = "execute_command" && d.command = some command
        && d.intent_id = ai.id) = some d0) :
    (scopeGate env task tu).res = { shouldProceed := true }
    ∧ (scopeGate env task tu).st.prompts = []
    ∧ (scopeGate env task tu).st.task.approvedCommands.contains command = true
    ∧ (scopeGate env task tu).st.task.intentDecisions =
        task.intentDecisions ++
          [{ intent_id := ai.id, tool := tu.name, decision := "approved",
             reason := "reused_approval", command := some command,
             command_classification := some CommandSafety.destructive,
             timestamp := env.now }] := by
  have hred := scopeGate_command_reduce env task tu ai hp hname hai hid hig
  rw [hred]
  unfold commandBranch
  dsimp only
  rw [← hcmd, if_neg hct, hclass]
  rw [if_neg (by decide)]
  rw [hfind]
  simp only [Option.isSome_some, if_true]
  refine ⟨rfl, rfl, ?_, ?_⟩
  · exact markCommandApproved_contains _ _
  · simp [markCmd, markCommandApproved, recordD, recordDecision]
    split <;> rfl

/-- Witness for C6: the persisted approval is reused without a prompt. -/
theorem C6_persisted_command_approval_reused_witness :
    (scopeGate c6env gateTask
      { name := "execute_command", nativeArgs := { command := some "rm tmp" } }).res =
      { shouldProceed := true }
    ∧ (scopeGate c6env gateTask
      { name := "execute_command", nativeArgs := { command := some "rm tmp" } }).st.prompts
      = [] := by
  have h := C6_persisted_command_approval_reused c6env gateTask
    { name := "execute_command", nativeArgs := { command := some "rm tmp" } }
    { id := "i1", context := IntentCtx.obj ["src"], selectedAt := "" }
    c6decision "rm tmp"
    rfl rfl rfl (by decide) rfl rfl (by decide) (by decide) (by decide)
  exact ⟨h.1, h.2.1⟩

/-- Reduction of the gate on a non-partial call to a tool that is neither
destructive nor the intent selector, with a live, non-ignored active intent:
the run is the non-destructive branch over the classification-updated
session. -/
theorem scopeGate_nondestructive_reduce (env : Env) (task : TaskState) (tu : ToolUse)
    (ai : ActiveIntent)
    (hp : tu.isPartial = false)
    (hnd : isDestructiveTool tu.name = false)
    (hns : tu.name ≠ "select_active_intent")
    (hai : task.activeIntent = some ai)
    (hid : ai.id ≠ "")
    (hig : intentIgnored env ai.id = false) :
    scopeGate env task tu =
      nonDestructiveBranch env
        { task := (getUserIntentClassification env task).2.1, tu := tu, prompts := [],
          fx := (getUserIntentClassification env task).2.2 }
        ai.id (getUserIntentClassification env task).1 (extractTargetPaths tu) := by
  have hne1 : (tu.name == "execute_command") = false := by
    apply beq_eq_false_iff_ne.mpr
    intro he
    rw [he] at hnd
    exact absurd hnd (by simp [execute_command_destructive])
  have hne2 : (tu.name == "select_active_intent") = false := beq_eq_false_iff_ne.mpr hns
  have hbid : (ai.id == "") = false := beq_eq_false_iff_ne.mpr hid
  unfold scopeGate
  rw [hp, hai]
  dsimp only
  simp only [hne1, hne2, hbid, hig, hnd, bne, Bool.not_false, Bool.not_true, Bool.false_or,
    Bool.and_false, Bool.true_and, Bool.and_true, Bool.false_eq_true, if_false,
    eq_self_iff_true, if_true]

/-- Cached denial at the destructive-intent preflight: an immediate
REQ-009 veto with no prompt and no new decision. -/
theorem scopeGate_preflight_cached_denial (env : Env) (task : TaskState) (tu : ToolUse)
    (ai : ActiveIntent) (ic : UserIntentClassification) (k : String)
    (hp : tu.isPartial = false)
    (hnd : isDestructiveTool tu.name = false)
    (hns : tu.name ≠ "select_active_intent")
    (hai : task.activeIntent = some ai)
    (hid : ai.id ≠ "")
    (hig : intentIgnored env ai.id = false)
    (hic : (getUserIntentClassification env task).1 = some ic)
    (hv : ic.verdict = "destructive")
    (hkey : getDestructiveApprovalKey (some ic) tu (extractTargetPaths tu) = some k)
    (hprior : assocGet task.destructiveIntentApprovals k = some false) :
    (scopeGate env task tu).res =
      { shouldProceed := false, errorMessage := some (ErrMsg.structured
        { error_type := "destructive_intent_denied", code := "REQ-009",
          intent_id := ai.id, tool := some tu.name,
          message := "User denied destructive intent confirmation", extras := [] }) }
    ∧ (scopeGate env task tu).st.prompts = []
    ∧ (scopeGate env task tu).st.task.intentDecisions = task.intentDecisions := by
  obtain ⟨c, hc⟩ := getUserIntentClassification_fields env task
  have hred := scopeGate_nondestructive_reduce env task tu ai hp hnd hns hai hid hig
  rw [hred]
  unfold nonDestructiveBranch
  dsimp only
  rw [hic]
  rw [if_pos (by simp [icDestructive, hv])]
  rw [hkey]
  dsimp only
  have hpr : getDestructiveIntentApproval (getUserIntentClassification env task).2.1 k
      = some false := by
    rw [hc]
    simpa [getDestructiveIntentApproval] using hprior
  rw [hpr]
  rw [if_neg (by simp)]
  rw [if_pos rfl]
  refine ⟨rfl, rfl, ?_⟩
  rw [hc]
  rfl

/-- Fresh denial at the destructive-intent preflight: the REQ-009 veto is
returned and the denial cached under the approval key. -/
theorem scopeGate_preflight_fresh_denial (env : Env) (task : TaskState) (tu : ToolUse)
    (ai : ActiveIntent) (ic : UserIntentClassification) (k : String)
    (hp : tu.isPartial = false)
    (hnd : isDestructiveTool tu.name = false)
    (hns : tu.name ≠ "select_active_intent")
    (hai : task.activeIntent = some ai)
    (hid : ai.id ≠ "")
    (hig : intentIgnored env ai.id = false)
    (hic : (getUserIntentClassification env task).1 = some ic)
    (hv : ic.verdict = "destructive")
    (hkey : getDestructiveApprovalKey (some ic) tu (extractTargetPaths tu) = some k)
    (hprior : assocGet task.destructiveIntentApprovals k = none)
    (hans : env.answer 0 = false) :
    (scopeGate env task tu).res =
      { shouldProceed := false, errorMessage := some (ErrMsg.structured
        { error_type := "destructive_intent_denied", code := "REQ-009",
          intent_id := ai.id, tool := some tu.name,
          message := "User denied destructive intent confirmation",
          extras := [("targets", ExtraVal.strs (extractTargetPaths tu))] }) }
    ∧ (scopeGate env task tu).st.prompts = [Prompt.destructiveIntentPreflight]
    ∧ assocGet (scopeGate env task tu).st.task.destructiveIntentApprovals k = some false := by
  obtain ⟨c, hc⟩ := getUserIntentClassification_fields env task
  have hred := scopeGate_nondestructive_reduce env task tu ai hp hnd hns hai hid hig
  rw [hred]
  unfold nonDestructiveBranch
  dsimp only
  rw [hic]
  rw [if_pos (by simp [icDestructive, hv])]
  rw [hkey]
  dsimp only
  have hpr : getDestructiveIntentApproval (getUserIntentClassification env task).2.1 k
      = none := by
    rw [hc]
    simpa [getDestructiveIntentApproval] using hprior
  rw [hpr]
  rw [if_neg (by simp)]
  rw [if_neg (by simp)]
  unfold askApproval
  dsimp only
  simp only [List.length_nil, hans]
  rw [if_neg (by simp)]
  refine ⟨rfl, rfl, ?_⟩
  simp only [vetoErr, recordD, recordDecision, setDestructiveIntentApproval]
  exact assocGet_assocSet_self _ _ _

/-- Cached denial at the destructive-operation preflight of the mutating
path: an immediate REQ-008 veto with no prompt and no new decision. -/
theorem scopeGate_destrOp_cached_denial (env : Env) (task : TaskState) (tu : ToolUse)
    (ai : ActiveIntent) (k : String)
    (hp : tu.isPartial = false)
    (hm : isMutatingTool tu.name = true)
    (hai : task.activeIntent = some ai)
    (hid : ai.id ≠ "")
    (hig : intentIgnored env ai.id = false)
    (hblocked : (extractTargetPaths tu).filter
      (fun p => (getStaleFileBlock task p).isSome) = [])
    (hmd : getMutationMetadata tu = (some ai.id, some "AST_REFACTOR"))
    (htp : extractTargetPaths tu ≠ [])
    (hsv : (extractTargetPaths tu).filter (fun p =>
        !((getOwnedScopeFromTask (some ai)).any (fun root =>
          matchesScope env.ignoresPat root (resolvePath task.cwd p)
            (toPosixPath (relativePath task.cwd (resolvePath task.cwd p))) task.cwd))) = [])
    (hdop : (getDestructiveOperationInfo tu).1 = true)
    (hkey : getDestructiveApprovalKey (getUserIntentClassification env task).1 tu
      (extractTargetPaths tu) = some k)
    (hprior : assocGet task.destructiveIntentApprovals k = some false) :
    (scopeGate env task tu).res =
      { shouldProceed := false, errorMessage := some (ErrMsg.structured
        { error_type := "destructive_operation_denied", code := "REQ-008",
          intent_id := ai.id, tool := some tu.name,
          message := "User denied destructive operation", extras := [] }) }
    ∧ (scopeGate env task tu).st.prompts = []
    ∧ (scopeGate env task tu).st.task.intentDecisions = task.intentDecisions := by
  obtain ⟨c, hc⟩ := getUserIntentClassification_fields env task
  have hred := scopeGate_mutating_reduce env task tu ai hp hm hai hid hig
  have hb1 : (extractTargetPaths tu).filter
      (fun p => (getStaleFileBlock (getUserIntentClassification env task).2.1 p).isSome)
      = [] := by
    rw [hc]
    simpa [getStaleFileBlock] using hblocked
  have hmeta := metadataStage_noStale_eq env
    { task := (getUserIntentClassification env task).2.1, tu := tu,
      prompts := [], fx := (getUserIntentClassification env task).2.2 }
    ai.id (extractTargetPaths tu) hm hb1
  rw [hmeta] at hred
  rw [hmd] at hred
  dsimp only at hred
  simp [hid] at hred
  rw [hred]
  unfold afterMetadata
  dsimp only
  rw [if_neg htp]
  rw [hc]
  dsimp only
  rw [hai]
  rw [hsv]
  unfold destrOpStage
  dsimp only
  rw [if_pos (by simp [hm, hdop])]
  have hkey' : getDestructiveApprovalKey (getUserIntentClassification env task).1 tu
      (extractTargetPaths tu) = some k := hkey
  rw [hkey']
  dsimp only
  have hpr : getDestructiveIntentApproval
      { cwd := task.cwd, activeIntent := some ai,
        staleFileBlocks := task.staleFileBlocks,
        destructiveIntentApprovals := task.destructiveIntentApprovals,
        approvedCommands := task.approvedCommands,
        intentDecisions := task.intentDecisions,
        lastUserMessageText := task.lastUserMessageText,
        lastUserIntentClassification := c,
        lastVerificationFailure := task.lastVerificationFailure,
        traceSnapshots := task.traceSnapshots,
        didRejectTool := task.didRejectTool } k = some false := by
    simpa [getDestructiveIntentApproval] using hprior
  rw [hpr]
  rw [if_neg (by simp)]
  rw [if_pos rfl]
  exact ⟨rfl, rfl, rfl⟩

/-- Fresh denial at the destructive-operation preflight of the mutating
path: the REQ-008 veto is returned and the denial cached under the approval
key. -/
theorem scopeGate_destrOp_fresh_denial (env : Env) (task : TaskState) (tu : ToolUse)
    (ai : ActiveIntent) (k : String)
    (hp : tu.isPartial = false)
    (hm : isMutatingTool tu.name = true)
    (hai : task.activeIntent = some ai)
    (hid : ai.id ≠ "")
    (hig : intentIgnored env ai.id = false)
    (hblocked : (extractTargetPaths tu).filter
      (fun p => (getStaleFileBlock task p).isSome) = [])
    (hmd : getMutationMetadata tu = (some ai.id, some "AST_REFACTOR"))
    (htp : extractTargetPaths tu ≠ [])
    (hsv : (extractTargetPaths tu).filter (fun p =>
        !((getOwnedScopeFromTask (some ai)).any (fun root =>
          matchesScope env.ignoresPat root (resolvePath task.cwd p)
            (toPosixPath (relativePath task.cwd (resolvePath task.cwd p))) task.cwd))) = [])
    (hdop : (getDestructiveOperationInfo tu).1 = true)
    (hkey : getDestructiveApprovalKey (getUserIntentClassification env task).1 tu
      (extractTargetPaths tu) = some k)
    (hprior : assocGet task.destructiveIntentApprovals k = none)
    (hans : env.answer 0 = false) :
    (scopeGate env task tu).res =
      { shouldProceed := false, errorMessage := some (ErrMsg.structured
        { error_type := "destructive_operation_denied", code := "REQ-008",
          intent_id := ai.id, tool := some tu.name,
          message := "User denied destructive operation",
          extras := [("targets", ExtraVal.strs (extractTargetPaths tu))] }) }
    ∧ (scopeGate env task tu).st.prompts =
        [Prompt.destructiveOperation
          (buildDestructiveSummary tu (getDestructiveOperationInfo tu).2
            (extractTargetPaths tu))]
    ∧ assocGet (scopeGate env task tu).st.task.destructiveIntentApprovals k
        = some false := by
  obtain ⟨c, hc⟩ := getUserIntentClassification_fields env task
  have hred := scopeGate_mutating_reduce env task tu ai hp hm hai hid hig
  have hb1 : (extractTargetPaths tu).filter
      (fun p => (getStaleFileBlock (getUserIntentClassification env task).2.1 p).isSome)
      = [] := by
    rw [hc]
    simpa [getStaleFileBlock] using hblocked
  have hmeta := metadataStage_noStale_eq env
    { task := (getUserIntentClassification env task).2.1, tu := tu,
      prompts := [], fx := (getUserIntentClassification env task).2.2 }
    ai.id (extractTargetPaths tu) hm hb1
  rw [hmeta] at hred
  rw [hmd] at hred
  dsimp only at hred
  simp [hid] at hred
  rw [hred]
  unfold afterMetadata
  dsimp only
  rw [if_neg htp]
  rw [hc]
  dsimp only
  rw [hai]
  rw [hsv]
  unfold destrOpStage
  dsimp only
  rw [if_pos (by simp [hm, hdop])]
  rw [hkey]
  dsimp only
  have hpr : getDestructiveIntentApproval
      { cwd := task.cwd, activeIntent := some ai,
        staleFileBlocks := task.staleFileBlocks,
        destructiveIntentApprovals := task.destructiveIntentApprovals,
        approvedCommands := task.approvedCommands,
        intentDecisions := task.intentDecisions,
        lastUserMessageText := task.lastUserMessageText,
        lastUserIntentClassification := c,
        lastVerificationFailure := task.lastVerificationFailure,
        traceSnapshots := task.traceSnapshots,
        didRejectTool := task.didRejectTool } k = none := by
    simpa [getDestructiveIntentApproval] using hprior
  rw [hpr]
  rw [if_neg (by simp)]
  rw [if_neg (by simp)]
  unfold askApproval
  dsimp only
  simp only [List.length_nil, hans]
  rw [if_neg (by simp)]
  refine ⟨rfl, rfl, ?_⟩
  simp only [vetoErr, recordD, recordDecision, setDestructiveIntentApproval]
  exact assocGet_assocSet_self _ _ _

/-- C10: once a destructive-intent (REQ-009) or destructive-operation
(REQ-008) HITL prompt is denied, the denial is cached in the session's
destructive-approval map under its approval key, and any later call in the
same session that reaches the same preflight and computes the same key is
vetoed immediately with the corresponding structured error, with no new
HITL prompt and no new decision. -/
theorem C10_denied_destructive_cached_and_reused :
    (∀ (env : Env) (task : TaskState) (tu : ToolUse) (ai : ActiveIntent)
      (ic : UserIntentClassification) (k : String),
      tu.isPartial = false →
      isDestructiveTool tu.name = false →
      tu.name ≠ "select_active_intent" →
      task.activeIntent = some ai →
      ai.id ≠ "" →
      intentIgnored env ai.id = false →
      (getUserIntentClassification env task).1 = some ic →
      ic.verdict = "destructive" →
      getDestructiveApprovalKey (some ic) tu (extractTargetPaths tu) = some k →
      assocGet task.destructiveIntentApprovals k = none →
      env.answer 0 = false →
      (scopeGate env task tu).res =
        { shouldProceed := false, errorMessage := some (ErrMsg.structured
          { error_type := "destructive_intent_denied", code := "REQ-009",
            intent_id := ai.id, tool := some tu.name,
            message := "User denied destructive intent confirmation",
            extras := [("targets", ExtraVal.strs (extractTargetPaths tu))] }) }
      ∧ (scopeGate env task tu).st.prompts = [Prompt.destructiveIntentPreflight]
      ∧ assocGet (scopeGate env task tu).st.task.destructiveIntentApprovals k = some false)
    ∧ (∀ (env : Env) (task : TaskState) (tu : ToolUse) (ai : ActiveIntent)
      (ic : UserIntentClassification) (k : String),
      tu.isPartial = false →
      isDestructiveTool tu.name = false →
      tu.name ≠ "select_active_intent" →
      task.activeIntent = some ai →
      ai.id ≠ "" →
      intentIgnored env ai.id = false →
      (getUserIntentClassification env task).1 = some ic →
      ic.verdict = "destructive" →
      getDestructiveApprovalKey (some ic) tu (extractTargetPaths tu) = some k →
      assocGet task.destructiveIntentApprovals k = some false →
      (scopeGate env task tu).res =
        { shouldProceed := false, errorMessage := some (ErrMsg.structured
          { error_type := "destructive_intent_denied", code := "REQ-009",
            intent_id := ai.id, tool := some tu.name,
            message := "User denied destructive intent confirmation", extras := [] }) }
      ∧ (scopeGate env task tu).st.prompts = []
      ∧ (scopeGate env task tu).st.task.intentDecisions = task.intentDecisions)
    ∧ (∀ (env : Env) (task : TaskState) (tu : ToolUse) (ai : ActiveIntent) (k : String),
      tu.isPartial = false →
      isMutatingTool tu.name = true →
      task.activeIntent = some ai →
      ai.id ≠ "" →
      intentIgnored env ai.id = false →
      (extractTargetPaths tu).filter
        (fun p => (getStaleFileBlock task p).isSome) = [] →
      getMutationMetadata tu = (some ai.id, some "AST_REFACTOR") →
      extractTargetPaths tu ≠ [] →
      (extractTargetPaths tu).filter (fun p =>
        !((getOwnedScopeFromTask (some ai)).any (fun root =>
          matchesScope env.ignoresPat root (resolvePath task.cwd p)
            (toPosixPath (relativePath task.cwd (resolvePath task.cwd p))) task.cwd))) = [] →
      (getDestructiveOperationInfo tu).1 = true →
      getDestructiveApprovalKey (getUserIntentClassification env task).1 tu
        (extractTargetPaths tu) = some k →
      assocGet task.destructiveIntentApprovals k = none →
      env.answer 0 = false →
      (scopeGate env task tu).res =
        { shouldProceed := false, errorMessage := some (ErrMsg.structured
          { error_type := "destructive_operation_denied", code := "REQ-008",
            intent_id := ai.id, tool := some tu.name,
            message := "User denied destructive operation",
            extras := [("targets", ExtraVal.strs (extractTargetPaths tu))] }) }
      ∧ (scopeGate env task tu).st.prompts =
          [Prompt.destructiveOperation
            (buildDestructiveSummary tu (getDestructiveOperationInfo tu).2
              (extractTargetPaths tu))]
      ∧ assocGet (scopeGate env task tu).st.task.destructiveIntentApprovals k = some false)
    ∧ (∀ (env : Env) (task : TaskState) (tu : ToolUse) (ai : ActiveIntent) (k : String),
      tu.isPartial = false →
      isMutatingTool tu.name = true →
      task.activeIntent = some ai →
      ai.id ≠ "" →
      intentIgnored env ai.id = false →
      (extractTargetPaths tu).filter
        (fun p => (getStaleFileBlock task p).isSome) = [] →
      getMutationMetadata tu = (some ai.id, some "AST_REFACTOR") →
      extractTargetPaths tu ≠ [] →
      (extractTargetPaths tu).filter (fun p =>
        !((getOwnedScopeFromTask (some ai)).any (fun root =>
          matchesScope env.ignoresPat root (resolvePath task.cwd p)
            (toPosixPath (relativePath task.cwd (resolvePath task.cwd p))) task.cwd))) = [] →
      (getDestructiveOperationInfo tu).1 = true →
      getDestructiveApprovalKey (getUserIntentClassification env task).1 tu
        (extractTargetPaths tu) = some k →
      assocGet task.destructiveIntentApprovals k = some false →
      (scopeGate env task tu).res =
        { shouldProceed := false, errorMessage := some (ErrMsg.structured
          { error_type := "destructive_operation_denied", code := "REQ-008",
            intent_id := ai.id, tool := some tu.name,
            message := "User denied destructive operation", extras := [] }) }
      ∧ (scopeGate env task tu).st.prompts = []
      ∧ (scopeGate env task tu).st.task.intentDecisions = task.intentDecisions) := by
  refine ⟨?_, ?_, ?_, ?_⟩
  · exact fun env task tu ai ic k hp hnd hns hai hid hig hic hv hkey hprior hans =>
      scopeGate_preflight_fresh_denial env task tu ai ic k hp hnd hns hai hid hig hic hv
        hkey hprior hans
  · exact fun env task tu ai ic k hp hnd hns hai hid hig hic hv hkey hprior =>
      scopeGate_preflight_cached_denial env task tu ai ic k hp hnd hns hai hid hig hic hv
        hkey hprior
  · exact fun env task tu ai k hp hm hai hid hig hblocked hmd htp hsv hdop hkey hprior hans =>
      scopeGate_destrOp_fresh_denial env task tu ai k hp hm hai hid hig hblocked hmd htp hsv
        hdop hkey hprior hans
  · exact fun env task tu ai k hp hm hai hid hig hblocked hmd htp hsv hdop hkey hprior =>
      scopeGate_destrOp_cached_denial env task tu ai k hp hm hai hid hig hblocked hmd htp hsv
        hdop hkey hprior

/-- Witness for C10: a fresh denial at each preflight caches the denial
under its key, and each cached denial is replayed as an immediate veto with
no prompt. -/
theorem C10_denied_destructive_cached_and_reused_witness :
    ((scopeGate c10env c10taskFresh c10tuRead).res.shouldProceed = false
      ∧ assocGet (scopeGate c10env c10taskFresh c10tuRead).st.task.destructiveIntentApprovals
          "wipe it" = some false)
    ∧ ((scopeGate c10env c10taskCached c10tuRead).res.shouldProceed = false
      ∧ (scopeGate c10env c10taskCached c10tuRead).st.prompts = [])
    ∧ ((scopeGate baseEnv gateTask c10tuPatch).res.shouldProceed = false
      ∧ assocGet (scopeGate baseEnv gateTask c10tuPatch).st.task.destructiveIntentApprovals
          "apply_patch:src/x.ts" = some false)
    ∧ ((scopeGate baseEnv c10taskPatchCached c10tuPatch).res.shouldProceed = false
      ∧ (scopeGate baseEnv c10taskPatchCached c10tuPatch).st.prompts = []) := by
  obtain ⟨h1, h2, h3, h4⟩ := C10_denied_destructive_cached_and_reused
  have a1 := h1 c10env c10taskFresh c10tuRead
    { id := "i1", context := IntentCtx.obj ["src"] }
    { verdict := "destructive", reason := none, source := "heuristic",
      messageHash := some "wipe it" } "wipe it"
    rfl (by decide) (by decide) rfl (by decide) (by decide) rfl rfl rfl rfl rfl
  have a2 := h2 c10env c10taskCached c10tuRead
    { id := "i1", context := IntentCtx.obj ["src"] }
    { verdict := "destructive", reason := none, source := "heuristic",
      messageHash := some "wipe it" } "wipe it"
    rfl (by decide) (by decide) rfl (by decide) (by decide) rfl rfl rfl rfl
  have a3 := h3 baseEnv gateTask c10tuPatch
    { id := "i1", context := IntentCtx.obj ["src"] } "apply_patch:src/x.ts"
    rfl (by decide) rfl (by decide) (by decide) (by decide) rfl (by decide) (by decide)
    (by decide) (by decide) rfl rfl
  have a4 := h4 baseEnv c10taskPatchCached c10tuPatch
    { id := "i1", context := IntentCtx.obj ["src"] } "apply_patch:src/x.ts"
    rfl (by decide) rfl (by decide) (by decide) (by decide) rfl (by decide) (by decide)
    (by decide) (by decide) rfl
  refine ⟨⟨?_, a1.2.2⟩, ⟨?_, a2.2.1⟩, ⟨?_, a3.2.2⟩, ⟨?_, a4.2.1⟩⟩
  · rw [a1.1]
  · rw [a2.1]
  · rw [a3.1]
  · rw [a4.1]

theorem decisionAppends_append (cwd : String) (fx1 fx2 : List Effect) :
    decisionAppends cwd (fx1 ++ fx2) =
      decisionAppends cwd fx1 ++ decisionAppends cwd fx2 := by
  simp [decisionAppends, List.filterMap_append]

theorem lockedOnlyDiag_append (cwd : String) (fx1 fx2 : List Effect) :
    lockedOnlyDiag cwd (fx1 ++ fx2) =
      (lockedOnlyDiag cwd fx1 && lockedOnlyDiag cwd fx2) := by
  simp [lockedOnlyDiag, List.all_append]

theorem countNonStale_append (ps1 ps2 : List Prompt) :
    countNonStale (ps1 ++ ps2) = countNonStale ps1 + countNonStale ps2 := by
  simp [countNonStale, List.filter_append]

theorem countNonStale_single (p : Prompt) : countNonStale [p] ≤ 1 := by
  cases p <;> simp [countNonStale]

theorem StInv_setTask (cwd : String) (dec0 : List Decision) (st : GateSt) (t : TaskState)
    (hcw : t.cwd = st.task.cwd) (hdec : t.intentDecisions = st.task.intentDecisions)
    (h : StInv cwd dec0 st) : StInv cwd dec0 { st with task := t } := by
  obtain ⟨hc, hd, hp, hl⟩ := h
  exact ⟨by rw [hcw, hc], by rw [hdec]; exact hd, hp, hl⟩

theorem StInv_recordD (env : Env) (cwd : String) (dec0 : List Decision) (st : GateSt)
    (d : Decision) (h : StInv cwd dec0 st) : StInv cwd dec0 (recordD env st d) := by
  obtain ⟨hc, hd, hp, hl⟩ := h
  refine ⟨hc, ?_, ?_, ?_⟩
  · simp only [recordD, recordDecision]
    rw [hd, decisionAppends_append, hc]
    simp [decisionAppends]
  · simp only [recordD, recordDecision]
    rw [decisionAppends_append, hc]
    simp only [decisionAppends, List.filterMap, List.length_append]
    simp
    exact hp.trans (Nat.le_succ _)
  · simp only [recordD, recordDecision]
    rw [lockedOnlyDiag_append, hl]
    simp [lockedOnlyDiag]

theorem StInv_ask_tweak_record (env : Env) (cwd : String) (dec0 : List Decision)
    (st : GateSt) (p : Prompt) (t : TaskState) (d : Decision)
    (hcw : t.cwd = st.task.cwd) (hdec : t.intentDecisions = st.task.intentDecisions)
    (h : StInv cwd dec0 st) :
    StInv cwd dec0 (recordD env { (askApproval env st p).2 with task := t } d) := by
  obtain ⟨hc, hd, hp, hl⟩ := h
  refine ⟨?_, ?_, ?_, ?_⟩
  · simp only [askApproval, recordD, recordDecision]
    rw [hcw, hc]
  · simp only [askApproval, recordD, recordDecision]
    rw [hdec, hd, decisionAppends_append, hcw, hc]
    simp [decisionAppends]
  · simp only [askApproval, recordD, recordDecision]
    rw [decisionAppends_append, hcw, hc, countNonStale_append]
    simp only [decisionAppends, List.filterMap, List.length_append]
    simp
    calc countNonStale st.prompts + countNonStale [p]
        ≤ (decisionAppends cwd st.fx).length + 1 :=
          Nat.add_le_add hp (countNonStale_single p)
      _ = (decisionAppends cwd st.fx).length + 1 := rfl
  · simp only [askApproval, recordD, recordDecision]
    rw [lockedOnlyDiag_append, hcw, hc, hl]
    simp [lockedOnlyDiag]

theorem StInv_ask_record (env : Env) (cwd : String) (dec0 : List Decision)
    (st : GateSt) (p : Prompt) (d : Decision) (h : StInv cwd dec0 st) :
    StInv cwd dec0 (recordD env (askApproval env st p).2 d) :=
  StInv_ask_tweak_record env cwd dec0 st p st.task d rfl rfl h

theorem StInv_markCmd (cwd : String) (dec0 : List Decision) (st : GateSt) (c : String)
    (h : StInv cwd dec0 st) : StInv cwd dec0 (markCmd st c) := by
  refine StInv_setTask cwd dec0 st (markCommandApproved st.task c) ?_ ?_ h
  · unfold markCommandApproved
    split <;> rfl
  · unfold markCommandApproved
    split <;> rfl

theorem StInv_setTaskTu (cwd : String) (dec0 : List Decision) (st : GateSt)
    (t : TaskState) (tuN : ToolUse)
    (hcw : t.cwd = st.task.cwd) (hdec : t.intentDecisions = st.task.intentDecisions)
    (h : StInv cwd dec0 st) : StInv cwd dec0 { st with task := t, tu := tuN } := by
  obtain ⟨hc, hd, hp, hl⟩ := h
  exact ⟨by rw [hcw, hc], by rw [hdec]; exact hd, hp, hl⟩
theorem StInv_lockDiag (cwd : String) (dec0 : List Decision) (st : GateSt) (tag : String)
    (h : StInv cwd dec0 st) :
    StInv cwd dec0 { st with fx := st.fx ++
      [Effect.appendWithLockFx (diagnosticsFile st.task.cwd) tag] } := by
  obtain ⟨hc, hd, hp, hl⟩ := h
  refine ⟨hc, ?_, ?_, ?_⟩
  · rw [decisionAppends_append]
    simpa [decisionAppends] using hd
  · rw [decisionAppends_append]
    simpa [decisionAppends] using hp
  · rw [lockedOnlyDiag_append, hl, hc]
    simp [lockedOnlyDiag]

theorem StInv_ask_stale (env : Env) (cwd : String) (dec0 : List Decision) (st : GateSt)
    (b0 : String) (h : StInv cwd dec0 st) :
    StInv cwd dec0 (askApproval env st (Prompt.staleOverride b0)).2 := by
  obtain ⟨hc, hd, hp, hl⟩ := h
  refine ⟨hc, hd, ?_, hl⟩
  simp only [askApproval]
  rw [countNonStale_append]
  simpa [countNonStale] using hp

theorem foldl_clearStale_cwd (l : List String) :
    ∀ t : TaskState, (l.foldl clearStaleFile t).cwd = t.cwd := by
  induction l with
  | nil => intro t; rfl
  | cons p rest ih =>
      intro t
      simp only [List.foldl_cons]
      rw [ih]
      rfl

theorem foldl_clearStale_dec (l : List String) :
    ∀ t : TaskState, (l.foldl clearStaleFile t).intentDecisions = t.intentDecisions := by
  induction l with
  | nil => intro t; rfl
  | cons p rest ih =>
      intro t
      simp only [List.foldl_cons]
      rw [ih]
      rfl

theorem scopeViolationLoop_StInv (env : Env) (cwd : String) (dec0 : List Decision)
    (aid : String) :
    ∀ (l : List String) (st : GateSt), StInv cwd dec0 st →
      StInv cwd dec0 (scopeViolationLoop env st aid l).st := by
  intro l
  induction l with
  | nil => intro st h; exact h
  | cons p rest ih =>
      intro st h
      unfold scopeViolationLoop
      simp only [askApproval]
      split
      · exact ih _ (StInv_ask_record env cwd dec0 st (Prompt.scopeViolation st.tu.name p) _ h)
      · exact StInv_ask_record env cwd dec0 st (Prompt.scopeViolation st.tu.name p) _ h

theorem commandBranch_StInv (env : Env) (cwd : String) (dec0 : List Decision)
    (st : GateSt) (aid : String) (h : StInv cwd dec0 st) :
    StInv cwd dec0 (commandBranch env st aid).st := by
  unfold commandBranch
  dsimp only
  split
  · exact h
  · split
    · exact StInv_markCmd cwd dec0 _ _ (StInv_recordD env cwd dec0 st _ h)
    · split
      · exact StInv_markCmd cwd dec0 _ _ (StInv_recordD env cwd dec0 st _ h)
      · simp only [askApproval]
        split
        · exact StInv_markCmd cwd dec0 _ _
            (StInv_ask_record env cwd dec0 st (Prompt.destructiveCommand _) _ h)
        · exact StInv_ask_record env cwd dec0 st (Prompt.destructiveCommand _) _ h

theorem nonDestructiveBranch_StInv (env : Env) (cwd : String) (dec0 : List Decision)
    (st : GateSt) (aid : String) (ic : Option UserIntentClassification)
    (tps : List String) (h : StInv cwd dec0 st) :
    StInv cwd dec0 (nonDestructiveBranch env st aid ic tps).st := by
  unfold nonDestructiveBranch
  dsimp only
  split
  · split
    · exact h
    · split
      · exact h
      · simp only [askApproval]
        split
        · split
          · exact StInv_ask_tweak_record env cwd dec0 st Prompt.destructiveIntentPreflight
              _ _ rfl rfl h
          · exact StInv_ask_tweak_record env cwd dec0 st Prompt.destructiveIntentPreflight
              _ _ rfl rfl h
        · split
          · exact StInv_ask_record env cwd dec0 st Prompt.destructiveIntentPreflight _ h
          · exact StInv_ask_record env cwd dec0 st Prompt.destructiveIntentPreflight _ h
  · exact h

theorem destrOpStage_StInv (env : Env) (cwd : String) (dec0 : List Decision)
    (st : GateSt) (aid : String) (ic : Option UserIntentClassification)
    (tps : List String) (rdp : Bool) (sv : List String) (ops : Option String)
    (h : StInv cwd dec0 st) :
    SumInv cwd dec0 (destrOpStage env st aid ic tps rdp sv ops) := by
  unfold destrOpStage
  dsimp only
  split
  · split
    · exact h
    · split
      · exact h
      · simp only [askApproval]
        split
        · split
          · exact StInv_ask_tweak_record env cwd dec0 st (Prompt.destructiveOperation _)
              _ _ rfl rfl h
          · exact StInv_ask_tweak_record env cwd dec0 st (Prompt.destructiveOperation _)
              _ _ rfl rfl h
        · split
          · exact StInv_ask_record env cwd dec0 st (Prompt.destructiveOperation _) _ h
          · exact StInv_ask_record env cwd dec0 st (Prompt.destructiveOperation _) _ h
  · exact h

theorem metadataStage_StInv (env : Env) (cwd : String) (dec0 : List Decision)
    (st : GateSt) (aid : String) (tps : List String) (h : StInv cwd dec0 st) :
    SumInv cwd dec0 (metadataStage env st aid tps) := by
  unfold metadataStage
  dsimp only
  split
  · exact h
  · cases hb : tps.filter (fun p => (getStaleFileBlock st.task p).isSome) with
    | nil =>
        dsimp only
        split
        · split <;> exact h
        · split
          · split <;> exact h
          · split <;> exact h
    | cons b0 rest =>
        have hF := StInv_lockDiag cwd dec0 st "stale_lock" h
        have h1 := StInv_ask_stale env cwd dec0
          { st with fx := st.fx ++
            [Effect.appendWithLockFx (diagnosticsFile st.task.cwd) "stale_lock"] } b0 hF
        simp only [askApproval] at h1 ⊢
        by_cases hA : env.answer st.prompts.length = true
        · rw [if_pos hA]
          dsimp only
          split
          · split <;> exact StInv_setTaskTu cwd dec0 _ _ _
              (foldl_clearStale_cwd _ _) (foldl_clearStale_dec _ _) h1
          · split
            · split <;> exact StInv_setTaskTu cwd dec0 _ _ _
                (foldl_clearStale_cwd _ _) (foldl_clearStale_dec _ _) h1
            · split <;> exact StInv_setTaskTu cwd dec0 _ _ _
                (foldl_clearStale_cwd _ _) (foldl_clearStale_dec _ _) h1
        · rw [if_neg hA]
          dsimp only
          exact StInv_setTaskTu cwd dec0 _ _ st.tu rfl rfl h1

theorem afterMetadata_StInv (env : Env) (cwd : String) (dec0 : List Decision)
    (st : GateSt) (aid : String) (ic : Option UserIntentClassification)
    (tps : List String) (h : StInv cwd dec0 st) :
    StInv cwd dec0 (afterMetadata env st aid ic tps).st := by
  unfold afterMetadata
  dsimp only
  split
  · simp only [askApproval]
    split
    · exact StInv_ask_record env cwd dec0 st (Prompt.unknownTargets st.tu.name) _ h
    · exact StInv_ask_record env cwd dec0 st (Prompt.unknownTargets st.tu.name) _ h
  · have hd := destrOpStage_StInv env cwd dec0 st aid ic tps
      (isMutatingTool st.tu.name && ((getDestructiveOperationInfo st.tu).fst
        || icDestructive ic))
      (tps.filter fun p =>
        !((getOwnedScopeFromTask st.task.activeIntent).any fun root =>
          matchesScope env.ignoresPat root (resolvePath st.task.cwd p)
            (toPosixPath (relativePath st.task.cwd (resolvePath st.task.cwd p)))
            st.task.cwd))
      (getDestructiveOperationInfo st.tu).snd h
    cases hds : destrOpStage env st aid ic tps
        (isMutatingTool st.tu.name && ((getDestructiveOperationInfo st.tu).fst
          || icDestructive ic))
        (tps.filter fun p =>
          !((getOwnedScopeFromTask st.task.activeIntent).any fun root =>
            matchesScope env.ignoresPat root (resolvePath st.task.cwd p)
              (toPosixPath (relativePath st.task.cwd (resolvePath st.task.cwd p)))
              st.task.cwd))
        (getDestructiveOperationInfo st.tu).snd with
    | inl out =>
        rw [hds] at hd
        exact hd
    | inr st1 =>
        rw [hds] at hd
        exact scopeViolationLoop_StInv env cwd dec0 aid _ st1 hd

theorem getUserIntentClassification_inv (env : Env) (task : TaskState) :
    (getUserIntentClassification env task).2.1.cwd = task.cwd
    ∧ (getUserIntentClassification env task).2.1.intentDecisions = task.intentDecisions
    ∧ decisionAppends task.cwd (getUserIntentClassification env task).2.2 = []
    ∧ lockedOnlyDiag task.cwd (getUserIntentClassification env task).2.2 = true := by
  obtain ⟨cwd, ai, sfb, dia, ac, idec, lum, luic, lvf, ts, drt⟩ := task
  cases lum with
  | none =>
      simp [getUserIntentClassification, decisionAppends, lockedOnlyDiag]
  | some t =>
      by_cases htrim : strTrim t = ""
      · simp [getUserIntentClassification, htrim, decisionAppends, lockedOnlyDiag]
      · by_cases hn : env.nodeEnvTest
        · cases luic with
          | none =>
              simp [getUserIntentClassification, htrim, hn, decisionAppends, lockedOnlyDiag]
          | some cached =>
              by_cases hmh : cached.messageHash = some (env.hashMessage t)
              · simp [getUserIntentClassification, htrim, hn, hmh, decisionAppends,
                  lockedOnlyDiag]
              · simp [getUserIntentClassification, htrim, hn, hmh, decisionAppends,
                  lockedOnlyDiag]
        · cases luic with
          | none =>
              simp [getUserIntentClassification, htrim, hn, decisionAppends, lockedOnlyDiag]
          | some cached =>
              by_cases hmh : cached.messageHash = some (env.hashMessage t)
              · simp [getUserIntentClassification, htrim, hn, hmh, decisionAppends,
                  lockedOnlyDiag]
              · simp [getUserIntentClassification, htrim, hn, hmh, decisionAppends,
                  lockedOnlyDiag]

theorem metadataStage_inl_StInv (env : Env) (cwd : String) (dec0 : List Decision)
    (st1 : GateSt) (aid : String) (tps : List String) (out : GateOut)
    (h : StInv cwd dec0 st1)
    (heq : metadataStage env st1 aid tps = Sum.inl out) : StInv cwd dec0 out.st := by
  have hm := metadataStage_StInv env cwd dec0 st1 aid tps h
  rw [heq] at hm
  exact hm

theorem metadataStage_inr_after_StInv (env : Env) (cwd : String) (dec0 : List Decision)
    (st1 : GateSt) (aid : String) (ic : Option UserIntentClassification)
    (tps : List String) (st2 : GateSt)
    (h : StInv cwd dec0 st1)
    (heq : metadataStage env st1 aid tps = Sum.inr st2) :
    StInv cwd dec0 (afterMetadata env st2 aid ic tps).st := by
  have hm := metadataStage_StInv env cwd dec0 st1 aid tps h
  rw [heq] at hm
  exact afterMetadata_StInv env cwd dec0 st2 aid ic tps hm

theorem scopeGate_StInv (env : Env) (task : TaskState) (tu : ToolUse) :
    StInv task.cwd task.intentDecisions (scopeGate env task tu).st := by
  have hinit : StInv task.cwd task.intentDecisions { task := task, tu := tu } :=
    ⟨rfl, by simp [decisionAppends], by simp [countNonStale, decisionAppends], rfl⟩
  have hcls : StInv task.cwd task.intentDecisions
      { task := (getUserIntentClassification env task).2.1, tu := tu, prompts := [],
        fx := (getUserIntentClassification env task).2.2 } := by
    obtain ⟨h1, h2, h3, h4⟩ := getUserIntentClassification_inv env task
    refine ⟨h1, ?_, ?_, h4⟩
    · rw [h2, h3]
      simp
    · rw [h3]
      simp [countNonStale]
  have hst1 : ∀ b : Bool, StInv task.cwd task.intentDecisions
      { task := (if b = true then getUserIntentClassification env task
          else (none, task, [])).2.1,
        tu := tu, prompts := [],
        fx := (if b = true then getUserIntentClassification env task
          else (none, task, [])).2.2 } := by
    intro b
    cases b
    · exact hinit
    · exact hcls
  unfold scopeGate
  dsimp only
  split
  · exact hinit
  · split
    · exact hinit
    · split
      · exact hinit
      · split
        · split
          · exact commandBranch_StInv env task.cwd task.intentDecisions _ _ hcls
          · exact commandBranch_StInv env task.cwd task.intentDecisions _ _ hinit
        · split
          · split
            · exact nonDestructiveBranch_StInv env task.cwd task.intentDecisions _ _ _ _ hcls
            · exact nonDestructiveBranch_StInv env task.cwd task.intentDecisions _ _ _ _ hinit
          · split
            · next out heq =>
                exact metadataStage_inl_StInv env task.cwd task.intentDecisions _ _ _ _
                  (hst1 _) heq
            · next st2 heq =>
                exact metadataStage_inr_after_StInv env task.cwd task.intentDecisions _ _ _ _ _
                  (hst1 _) heq

/-- C7 counterexample: the stale-lock override HITL prompt records no
Decision at all (the decision list stays empty and nothing is appended to
the decisions ledger), and when a prompt does record a Decision it is
persisted by a plain direct append to the decisions ledger, with no
append-with-lock write to that ledger anywhere in the run. -/
theorem C7_staleOverride_and_direct_append_counterexample :
    (scopeGate baseEnv c7staleTask c7tuStale).st.prompts
      = [Prompt.staleOverride "src/x.ts"]
    ∧ (scopeGate baseEnv c7staleTask c7tuStale).st.task.intentDecisions = []
    ∧ decisionAppends "/w" (scopeGate baseEnv c7staleTask c7tuStale).st.fx = []
    ∧ (scopeGate baseEnv gateTask c7tuNoTargets).st.prompts
      = [Prompt.unknownTargets "write_to_file"]
    ∧ (scopeGate baseEnv gateTask c7tuNoTargets).st.task.intentDecisions
      = [{ intent_id := "i1", tool := "write_to_file", decision := "rejected",
           reason := "unknown_targets", timestamp := "T0" }]
    ∧ (scopeGate baseEnv gateTask c7tuNoTargets).st.fx
      = [Effect.mkdirp (orchestrationDir "/w"),
         Effect.appendFileDirect (decisionsFile "/w")
           { intent_id := "i1", tool := "write_to_file", decision := "rejected",
             reason := "unknown_targets", timestamp := "T0" }] := by
  refine ⟨?_, ?_, ?_, ?_, ?_, ?_⟩ <;> decide

/-- C7 (amended): in every scope-gate run the session decision cache grows
by exactly the decisions persisted to the decisions ledger, each as one
direct append (plain fs.appendFile); every HITL prompt other than the
stale-lock override is covered by such a recorded decision; and no write to
the decisions ledger goes through the append-with-lock utility, which only
ever serves the diagnostics ledger. -/
theorem C7_decision_recording (env : Env) (task : TaskState) (tu : ToolUse) :
    (scopeGate env task tu).st.task.intentDecisions =
      task.intentDecisions ++ decisionAppends task.cwd (scopeGate env task tu).st.fx
    ∧ countNonStale (scopeGate env task tu).st.prompts
        ≤ (decisionAppends task.cwd (scopeGate env task tu).st.fx).length
    ∧ lockedOnlyDiag task.cwd (scopeGate env task tu).st.fx = true := by
  obtain ⟨h1, h2, h3, h4⟩ := scopeGate_StInv env task tu
  exact ⟨h2, h3, h4⟩
end Middleware
